import Mathlib

/-!
# Verification of the SignalMessenger cryptographic core

A shallow embedding of the repository's Signal-protocol implementation
(`src/crypto/HKDF.js`, `src/crypto/Curve25519.js`, `src/crypto/AES256GCM.js`,
`src/crypto/signal/DoubleRatchet.js`, `src/crypto/signal/X3DH.js`,
`src/crypto/signal/KeyManager.js`, `src/crypto/signal/SessionManager.js`),
together with proofs and refutations of the specification's claims about it.

Byte strings are `List Nat` with every element `< 256`.  JavaScript
`Uint8Array` values become such lists; JS `Map` and plain objects become
insertion-ordered association lists; thrown exceptions become `Except`.
-/

/-- Byte strings: JS `Uint8Array` values, one `Nat` (< 256) per byte. -/
abbrev Bytes := List Nat

/-- The JS exceptions thrown by the embedded code, one constructor per
distinct `throw new Error(...)` site that the claims touch. -/
inductive JsErr where
  /-- 'Decryption failed - authentication tag mismatch' (AES256GCM.js). -/
  | authFailed
  /-- 'Double Ratchet: refusing to skip ... messages' (DoubleRatchet.js). -/
  | tooManySkipped
  /-- 'Encrypted payload too short' (AES256GCM.js `deserializeEncrypted`). -/
  | payloadTooShort
  /-- 'AES-256-GCM requires a 32-byte key' (AES256GCM.js). -/
  | badKeyLength
  /-- 'HKDF: requested too many bytes' (HKDF.js `hkdfExpand`). -/
  | hkdfTooLong
  /-- 'One-time pre-key ... not found' (KeyManager.js). -/
  | opkNotFound
  /-- 'Signed pre-key ... not found' (KeyManager.js). -/
  | spkNotFound
  /-- 'No session found ...' (SessionManager.js). -/
  | noSession
  /-- 'DH computation failed - invalid key material' (Curve25519.js);
  also stands for the spec's `InvalidKey` error. -/
  | invalidKey
  /-- A JS `TypeError` (e.g. reading `.length` of `null`). -/
  | typeError
  deriving DecidableEq, Repr

deriving instance DecidableEq for Except

/-! ## SHA-256, HMAC-SHA-256 and HKDF — from `src/crypto/HKDF.js`

The repository ships its own pure-JS SHA-256 (FIPS 180-4) and builds
HMAC (RFC 2104) and HKDF (RFC 5869) on top of it.  The definitions below
are byte-for-byte translations of that file; 32-bit JS arithmetic
(`>>> 0`, `^`, `&`, `|`, `~`) becomes `Nat` arithmetic modulo `2^32`. -/

/-- Truncation to an unsigned 32-bit value, JS `x >>> 0`. -/
def u32 (x : Nat) : Nat := x % 4294967296

/-- 32-bit right rotation, `rotr` in HKDF.js. -/
def rotr32 (x n : Nat) : Nat := u32 ((x >>> n) ||| (x <<< (32 - n)))

/-- SHA-256 round constants `K` (HKDF.js; the source lists them in hex,
here written in decimal). -/
def shaK : List Nat :=
  [1116352408, 1899447441, 3049323471, 3921009573, 961987163, 1508970993,
   2453635748, 2870763221, 3624381080, 310598401, 607225278, 1426881987,
   1925078388, 2162078206, 2614888103, 3248222580, 3835390401, 4022224774,
   264347078, 604807628, 770255983, 1249150122, 1555081692, 1996064986,
   2554220882, 2821834349, 2952996808, 3210313671, 3336571891, 3584528711,
   113926993, 338241895, 666307205, 773529912, 1294757372, 1396182291,
   1695183700, 1986661051, 2177026350, 2456956037, 2730485921, 2820302411,
   3259730800, 3345764771, 3516065817, 3600352804, 4094571909, 275423344,
   430227734, 506948616, 659060556, 883997877, 958139571, 1322822218,
   1537002063, 1747873779, 1955562222, 2024104815, 2227730452, 2361852424,
   2428436474, 2756734187, 3204031479, 3329325298]

/-- Big-endian 4-byte encoding of a 32-bit value (`DataView.setUint32(_, _, false)`). -/
def be32 (x : Nat) : Bytes :=
  [x / 16777216 % 256, x / 65536 % 256, x / 256 % 256, x % 256]

/-- SHA-256 message padding from HKDF.js: `0x80`, zeros, then the bit
length as a big-endian 64-bit integer (written as two `setUint32`). -/
def sha256pad (data : Bytes) : Bytes :=
  let len := data.length
  let bitLen := len * 8
  let paddingNeeded := (64 - ((len + 9) % 64)) % 64
  data ++ [0x80] ++ List.replicate paddingNeeded 0
    ++ be32 (bitLen / 4294967296) ++ be32 (u32 bitLen)

/-- Split a byte string into 64-byte blocks (the `i += 64` loop bound);
`fuel` is an upper bound on the block count, spent one unit per block. -/
def toBlocksGo (fuel : Nat) (l : Bytes) : List Bytes :=
  match fuel with
  | 0 => []
  | fuel + 1 => if l.length = 0 then [] else l.take 64 :: toBlocksGo fuel (l.drop 64)

/-- Split a byte string into 64-byte blocks. -/
def toBlocks (l : Bytes) : List Bytes := toBlocksGo l.length l

/-- The SHA-256 working state `(a, b, c, d, e, f, g, h)`. -/
abbrev ShaState := Nat × Nat × Nat × Nat × Nat × Nat × Nat × Nat

/-- Read the big-endian 32-bit words `W[0..15]` of one 64-byte block
(the `blockView.getUint32(t * 4, false)` loop). -/
def shaW16 : Bytes → List Nat
  | b0 :: b1 :: b2 :: b3 :: rest =>
    u32 (b0 * 16777216 + b1 * 65536 + b2 * 256 + b3) :: shaW16 rest
  | _ => []

/-- The schedule-extension recurrence
`W[t] = W[t-16] + s0(W[t-15]) + W[t-7] + s1(W[t-2])` (mod 2^32), applied
to the 16-word sliding window and iterated `rounds` times, emitting the
new words in order. -/
def shaExtend (window : List Nat) : Nat → List Nat
  | 0 => []
  | rounds + 1 =>
    match window with
    | w0 :: w1 :: _ :: _ :: _ :: _ :: _ :: _ :: _ :: w9 :: _ :: _ :: _ :: _ :: w14 :: _ :: _ =>
      let s0 := (rotr32 w1 7) ^^^ (rotr32 w1 18) ^^^ (w1 >>> 3)
      let s1 := (rotr32 w14 17) ^^^ (rotr32 w14 19) ^^^ (w14 >>> 10)
      let wNew := u32 (w0 + s0 + w9 + s1)
      wNew :: shaExtend (window.tail ++ [wNew]) rounds
    | _ => []

/-- The full 64-entry message schedule of one block: `W[0..15]` from the
block bytes and `W[16..63]` by the extension recurrence. -/
def shaSchedule (block : Bytes) : List Nat :=
  let W16 := shaW16 block
  W16 ++ shaExtend W16 48

/-- The 64 SHA-256 compression rounds, consuming the zipped round
constants `K[t]` and schedule words `W[t]`. -/
def shaRounds : List Nat → List Nat → ShaState → ShaState
  | k :: ks, w :: ws, (a, b, c, d, e, f, g, h) =>
    let S1 := (rotr32 e 6) ^^^ (rotr32 e 11) ^^^ (rotr32 e 25)
    let ch := (e &&& f) ^^^ ((4294967295 ^^^ e) &&& g)
    let temp1 := u32 (h + S1 + ch + k + w)
    let S0 := (rotr32 a 2) ^^^ (rotr32 a 13) ^^^ (rotr32 a 22)
    let maj := (a &&& b) ^^^ (a &&& c) ^^^ (b &&& c)
    let temp2 := u32 (S0 + maj)
    shaRounds ks ws (u32 (temp1 + temp2), a, b, c, u32 (d + temp1), e, f, g)
  | _, _, st => st

/-- One SHA-256 block: 64 rounds plus the final feed-forward into `H`. -/
def shaCompress (H : ShaState) (block : Bytes) : ShaState :=
  let (a0, b0, c0, d0, e0, f0, g0, h0) := H
  let (a, b, c, d, e, f, g, h) := shaRounds shaK (shaSchedule block) H
  (u32 (a0 + a), u32 (b0 + b), u32 (c0 + c), u32 (d0 + d),
   u32 (e0 + e), u32 (f0 + f), u32 (g0 + g), u32 (h0 + h))

/-- `sha256` from HKDF.js: pad, compress each block, serialize `H`
big-endian. -/
def sha256 (data : Bytes) : Bytes :=
  let init : ShaState :=
    (0x6a09e667, 0xbb67ae85, 0x3c6ef372, 0xa54ff53a,
     0x510e527f, 0x9b05688c, 0x1f83d9ab, 0x5be0cd19)
  let (a, b, c, d, e, f, g, h) := (toBlocks (sha256pad data)).foldl shaCompress init
  be32 a ++ be32 b ++ be32 c ++ be32 d ++ be32 e ++ be32 f ++ be32 g ++ be32 h

/-- `hmacSHA256` from HKDF.js (RFC 2104 over the pure-JS SHA-256):
normalize the key to 64 bytes, XOR with `ipad`/`opad`, hash twice. -/
def hmacSHA256 (key data : Bytes) : Bytes :=
  let keyBytes := if key.length > 64 then sha256 key else key
  let keyBytes := keyBytes ++ List.replicate (64 - keyBytes.length) 0
  let ipad := keyBytes.map (fun b => b ^^^ 0x36)
  let opad := keyBytes.map (fun b => b ^^^ 0x5c)
  let innerHash := sha256 (ipad ++ data)
  sha256 (opad ++ innerHash)

/-- `hkdfExtract` from HKDF.js: `PRK = HMAC-SHA256(salt or zero32, ikm)`. -/
def hkdfExtract (salt ikm : Bytes) : Bytes :=
  let effectiveSalt := if salt.length > 0 then salt else List.replicate 32 0
  hmacSHA256 effectiveSalt ikm

/-- The `for (let i = 1; i <= N; i++)` loop of `hkdfExpand`, producing
`T(i) ++ ... ++ T(i+rounds-1)` from the previous block `T`; `rounds`
counts the remaining iterations. -/
def hkdfExpandLoop (prk info T : Bytes) (i : Nat) : Nat → Bytes
  | 0 => []
  | rounds + 1 =>
    let T' := hmacSHA256 prk (T ++ info ++ [i])
    T' ++ hkdfExpandLoop prk info T' (i+1) rounds

/-- `hkdfExpand` from HKDF.js; throws when more than `255 * 32` bytes are
requested. -/
def hkdfExpand (prk info : Bytes) (length : Nat) : Except JsErr Bytes :=
  let N := (length + 31) / 32
  if N > 255 then .error .hkdfTooLong
  else .ok ((hkdfExpandLoop prk info [] 1 N).take length)

/-- `hkdf` from HKDF.js: extract then expand. -/
def hkdf (ikm salt info : Bytes) (length : Nat) : Except JsErr Bytes :=
  let prk := hkdfExtract salt ikm
  hkdfExpand prk info length

/-- ASCII bytes of a label string (`new TextEncoder().encode(...)`). -/
def strBytes (s : String) : Bytes := s.data.map Char.toNat

/-! ## Base64 — JS `btoa`/`atob` as used by `bytesToBase64`/`base64ToBytes`
in `src/crypto/Curve25519.js`

`bytesToBase64` builds the latin-1 string of the bytes and calls `btoa`;
`base64ToBytes` calls `atob` and reads the char codes back.  The two JS
builtins are RFC 4648 base64 over that byte string, embedded here
directly on the byte lists.  `atob` is modelled on well-formed base64
(every string the repository decodes is an earlier `btoa` output). -/

/-- The RFC 4648 base64 alphabet. -/
def b64Alphabet : List Char :=
  "ABCDEFGHIJKLMNOPQRSTUVWXYZabcdefghijklmnopqrstuvwxyz0123456789+/".data

/-- The base64 character of a sextet. -/
def sextetChar (n : Nat) : Char := b64Alphabet.getD n 'A'

/-- The sextet of a base64 character (64 when the character is not in
the alphabet; never reached on `btoa` outputs). -/
def charSextet (c : Char) : Nat := (b64Alphabet.indexOf c)

/-- `btoa`: encode bytes three at a time into four base64 characters,
padding the final partial group with `=`. -/
def b64Encode : Bytes → List Char
  | [] => []
  | [a] => [sextetChar (a / 4), sextetChar (a % 4 * 16), '=', '=']
  | [a, b] => [sextetChar (a / 4), sextetChar (a % 4 * 16 + b / 16),
               sextetChar (b % 16 * 4), '=']
  | a :: b :: c :: rest =>
    sextetChar (a / 4) :: sextetChar (a % 4 * 16 + b / 16) ::
    sextetChar (b % 16 * 4 + c / 64) :: sextetChar (c % 64) :: b64Encode rest

/-- `bytesToBase64` from Curve25519.js (`String.fromCharCode` loop plus
`btoa`). -/
def bytesToBase64 (bytes : Bytes) : String := ⟨b64Encode bytes⟩

/-- `atob`: decode four base64 characters at a time, honouring `=`
padding. -/
def b64Decode : List Char → Bytes
  | a :: b :: c :: d :: rest =>
    if c = '=' then
      [charSextet a * 4 + charSextet b / 16]
    else if d = '=' then
      [charSextet a * 4 + charSextet b / 16,
       charSextet b % 16 * 16 + charSextet c / 4]
    else
      (charSextet a * 4 + charSextet b / 16) ::
      (charSextet b % 16 * 16 + charSextet c / 4) ::
      (charSextet c % 4 * 64 + charSextet d) :: b64Decode rest
  | _ => []

/-- `base64ToBytes` from Curve25519.js (`atob` plus the `charCodeAt`
loop). -/
def base64ToBytes (s : String) : Bytes := b64Decode s.data

/-! ## The X25519 model — `nacl.scalarMult` / `nacl.box.keyPair`

`src/crypto/Curve25519.js` delegates the curve arithmetic to the
external `tweetnacl` library, which is not part of this repository.

Modelled from the spec: §4.1 requires `dh(priv, peer_pub)` to be a
32-byte shared secret with the Diffie-Hellman agreement property, and
§4.3/§7 describe low-order peer points as the inputs on which the X25519
function returns an all-zero output.  The model realises exactly those
properties: scalar multiplication is exponentiation in the multiplicative
monoid of integers modulo `2^255 - 19` (the X25519 field prime), public
keys are group elements encoded as 32 little-endian bytes, and the
all-zero encoding (a "low-order point") is absorbing — its powers are
all-zero, as for the real low-order points of X25519.  Like the real
`nacl.scalarMult`, the function always returns a 32-byte array; it has
no failure output. -/

/-- Little-endian value of a byte string. -/
def bytesToNatLE : Bytes → Nat
  | [] => 0
  | b :: rest => b + 256 * bytesToNatLE rest

/-- Little-endian encoding of `x` into `len` bytes. -/
def natToBytesLE : Nat → Nat → Bytes
  | 0, _ => []
  | len + 1, x => x % 256 :: natToBytesLE len (x / 256)

/-- The X25519 field prime `2^255 - 19` (the model's group modulus). -/
def curveQ : Nat := 2 ^ 255 - 19

/-- Modelled from the spec: `nacl.scalarMult` — multiply the point `p`
by the scalar `n`; exponentiation modulo `curveQ` in the model.  Total:
it always returns 32 bytes, and an all-zero ("low-order") point yields
the all-zero output for any nonzero scalar. -/
def scalarMult (n p : Bytes) : Bytes :=
  natToBytesLE 32 ((bytesToNatLE p) ^ (bytesToNatLE n) % curveQ)

/-- The X25519 base point (u-coordinate 9), the model's generator. -/
def curveBase : Bytes := natToBytesLE 32 9

/-- Modelled from the spec: `nacl.box.keyPair()` / `generateKeyPair()`
from Curve25519.js — a fresh X25519 pair.  The caller supplies the
32 bytes of CSPRNG entropy (`seed`) that the library would draw; the
public key is the scalar multiple of the base point. -/
def generateKeyPairFrom (seed : Bytes) : Bytes × Bytes :=
  (scalarMult seed curveBase, seed)

/-- A `{ publicKey, privateKey }` pair as passed around by the repo. -/
structure KeyPair where
  publicKey : Bytes
  privateKey : Bytes
  deriving DecidableEq, Repr

/-- `generateKeyPair` from Curve25519.js, with explicit entropy. -/
def generateKeyPair (seed : Bytes) : KeyPair :=
  let kp := generateKeyPairFrom seed
  ⟨kp.1, kp.2⟩

/-- Constantly false: a JS `Uint8Array` object is always truthy, even
when empty or all-zero, so `if (!result)` on a `nacl.scalarMult` result
never fires. -/
def jsFalsyBytes (_ : Bytes) : Bool := false

/-- `dh` from Curve25519.js: `nacl.scalarMult` plus a guard that throws
`'DH computation failed - invalid key material'` when the result is
falsy — which a `Uint8Array` never is, so the guard is dead code. -/
def dh (privateKey publicKey : Bytes) : Except JsErr Bytes :=
  let result := scalarMult privateKey publicKey
  if jsFalsyBytes result then .error .invalidKey else .ok result

/-- `concat` from Curve25519.js (modelled by list append). -/
def concatBytes (arrays : List Bytes) : Bytes := arrays.foldl (· ++ ·) []

/-! ## The AEAD model — `nacl.secretbox` / `nacl.secretbox.open`

`src/crypto/AES256GCM.js` delegates to `tweetnacl`'s XSalsa20-Poly1305
secretbox (external to the repository; the spec's §9 design note records
that the `AES256GCM` module actually uses this cipher).

Modelled from the spec: §4.1's `aead_seal`/`aead_open` contract — the
sealed output is a 16-byte tag over the ciphertext followed by the
ciphertext (`nacl.secretbox` returns `tag(16) || ct`), opening verifies
the tag and fails on any mismatch.  The stream cipher is modelled as a
per-position additive keystream (invertible byte-wise), and Poly1305 as
a polynomial accumulator modulo `2^120` in an odd radix — an ideal MAC
in which any single-byte change of the ciphertext provably changes the
tag.  `nacl.secretbox` takes no associated-data input (XSalsa20-Poly1305
has none); this is faithful to the library and load-bearing for the AAD
claims. -/

/-- The MAC accumulator modulus (fits in the 16-byte tag). -/
def sbM : Nat := 2 ^ 120

/-- The MAC radix; odd, hence invertible modulo `sbM`. -/
def sbR : Nat := 2 ^ 64 + 13

/-- Keystream seed derived from key and nonce. -/
def sbStreamBase (key nonce : Bytes) : Nat :=
  (bytesToNatLE key + 256 * bytesToNatLE nonce) % 65521

/-- Keystream byte at position `j`. -/
def sbPad (base j : Nat) : Nat := (base + 17 * j) % 256

/-- XSalsa20 model: add the keystream byte-wise (position `j` onward). -/
def sbEncBytes (base : Nat) : Nat → Bytes → Bytes
  | _, [] => []
  | j, b :: rest => (b + sbPad base j) % 256 :: sbEncBytes base (j + 1) rest

/-- Inverse of `sbEncBytes`: subtract the keystream byte-wise. -/
def sbDecBytes (base : Nat) : Nat → Bytes → Bytes
  | _, [] => []
  | j, b :: rest => (b + 256 - sbPad base j) % 256 :: sbDecBytes base (j + 1) rest

/-- One step of the MAC accumulator. -/
def sbFoldStep (acc b : Nat) : Nat := (acc * sbR + (b + 1)) % sbM

/-- Poly1305 model: polynomial accumulator over the ciphertext in radix
`sbR` modulo `sbM`, keyed additively by key and nonce. -/
def sbTag (key nonce ct : Bytes) : Nat :=
  (bytesToNatLE key + bytesToNatLE nonce + ct.foldl sbFoldStep 0) % sbM

/-- Modelled from the spec: `nacl.secretbox(plaintext, nonce24, key32)`
— returns `tag(16) || ciphertext`. -/
def secretbox (plaintext nonce key : Bytes) : Bytes :=
  let ct := sbEncBytes (sbStreamBase key nonce) 0 plaintext
  natToBytesLE 16 (sbTag key nonce ct) ++ ct

/-- Modelled from the spec: `nacl.secretbox.open(cipherWithTag, nonce24,
key32)` — verifies the 16-byte tag and returns the plaintext, or `null`
(here `none`) on tag mismatch. -/
def secretboxOpen (cipherWithTag nonce key : Bytes) : Option Bytes :=
  let tag := cipherWithTag.take 16
  let ct := cipherWithTag.drop 16
  if tag = natToBytesLE 16 (sbTag key nonce ct)
  then some (sbDecBytes (sbStreamBase key nonce) 0 ct)
  else none

/-! ## `src/crypto/AES256GCM.js` -/

/-- The `{ ciphertext, nonce, tag }` result of `encryptAES256GCM`. -/
structure EncryptedPayload where
  ciphertext : Bytes
  nonce : Bytes
  tag : Bytes
  deriving DecidableEq, Repr

/-- `encryptAES256GCM(plaintext, key, aad)` from AES256GCM.js.  The
12-byte nonce is drawn from the CSPRNG; the caller of the embedding
supplies it (`nonce`).  The `aad` parameter is accepted — and, exactly
as in the source, never used: `nacl.secretbox` takes no associated
data. -/
def encryptAES256GCM (plaintext key aad nonce : Bytes) : Except JsErr EncryptedPayload :=
  if key.length ≠ 32 then .error .badKeyLength
  else
    let _ := aad
    let extNonce := nonce ++ List.replicate (24 - nonce.length) 0
    let cipherWithTag := secretbox plaintext extNonce key
    .ok ⟨cipherWithTag.drop 16, nonce, cipherWithTag.take 16⟩

/-- `decryptAES256GCM(ciphertext, nonce, tag, key, aad)` from
AES256GCM.js; throws `'Decryption failed - authentication tag mismatch'`
when `nacl.secretbox.open` returns `null`.  As in the source, `aad` is
accepted and never used. -/
def decryptAES256GCM (ciphertext nonce tag key aad : Bytes) : Except JsErr Bytes :=
  if key.length ≠ 32 then .error .badKeyLength
  else
    let _ := aad
    let cipherWithTag := tag ++ ciphertext
    let extNonce := nonce ++ List.replicate (24 - nonce.length) 0
    match secretboxOpen cipherWithTag extNonce key with
    | none => .error .authFailed
    | some plaintext => .ok plaintext

/-- `serializeEncrypted` from AES256GCM.js:
`[nonce(12)] [tag(16)] [ciphertext(n)]`. -/
def serializeEncrypted (p : EncryptedPayload) : Bytes :=
  p.nonce ++ p.tag ++ p.ciphertext

/-- `deserializeEncrypted` from AES256GCM.js; throws on fewer than
28 bytes. -/
def deserializeEncrypted (bytes : Bytes) : Except JsErr EncryptedPayload :=
  if bytes.length < 28 then .error .payloadTooShort
  else .ok ⟨bytes.drop 28, bytes.take 12, (bytes.drop 12).take 16⟩


/-! ## JS `Map` — insertion-ordered association list

`MKSKIPPED` is a JS `Map` with string keys.  A JS `Map` iterates in
insertion order; `set` of an existing key updates in place, `set` of a
new key appends, `delete` removes, `keys().next().value` is the first
(oldest) key. -/

/-- The skipped-message-key cache: JS `Map<string, Uint8Array>`. -/
abbrev SkipMap := List (String × Bytes)

/-- `Map.get`. -/
def mapGet {α : Type} (m : List (String × α)) (k : String) : Option α :=
  (m.find? (fun e => e.1 = k)).map (·.2)

/-- `Map.set`: update in place when the key exists, append otherwise. -/
def mapSet {α : Type} (m : List (String × α)) (k : String) (v : α) :
    List (String × α) :=
  if m.any (fun e => e.1 = k)
  then m.map (fun e => if e.1 = k then (k, v) else e)
  else m ++ [(k, v)]

/-- `Map.delete`. -/
def mapDelete {α : Type} (m : List (String × α)) (k : String) : List (String × α) :=
  m.filter (fun e => e.1 ≠ k)

/-- `Map.prototype.keys().next().value`: the first-inserted key. -/
def mapFirstKey {α : Type} (m : List (String × α)) : Option String :=
  (m.head?).map (·.1)

/-! ## `src/crypto/signal/DoubleRatchet.js` -/

/-- `MAX_SKIP` (DoubleRatchet.js). -/
def MAX_SKIP : Nat := 1000

/-- `MAX_CACHED_KEYS` (DoubleRatchet.js). -/
def MAX_CACHED_KEYS : Nat := 2000

/-- The `RatchetState` record of DoubleRatchet.js.  `DHs` is an object
or `null`, byte fields are `Uint8Array` or `null`, counters are JS
numbers, `MKSKIPPED` a `Map`. -/
structure RatchetState where
  DHs : Option KeyPair
  DHr : Option Bytes
  RK : Option Bytes
  CKs : Option Bytes
  CKr : Option Bytes
  Ns : Nat
  Nr : Nat
  PN : Nat
  MKSKIPPED : SkipMap
  deriving DecidableEq, Repr

/-- A message header `{ dh, pn, n }`. -/
structure MessageHeader where
  dh : Bytes
  pn : Nat
  n : Nat
  deriving DecidableEq, Repr

/-- `kdfRK` from DoubleRatchet.js:
`HKDF(ikm = dh_out, salt = rk, info = "WhisperRatchet", 64)`, split into
`(newRootKey, newChainKey)`. -/
def kdfRK (rootKey dhOut : Bytes) : Except JsErr (Bytes × Bytes) :=
  (hkdf dhOut rootKey (strBytes "WhisperRatchet") 64).map
    (fun output => (output.take 32, (output.drop 32).take 32))

/-- `kdfCK` from DoubleRatchet.js:
`(messageKey, nextChainKey) = (HMAC(ck, 0x01), HMAC(ck, 0x02))`. -/
def kdfCK (chainKey : Bytes) : Bytes × Bytes :=
  (hmacSHA256 chainKey [0x01], hmacSHA256 chainKey [0x02])

/-- `deriveMessageKeys` from DoubleRatchet.js:
`HKDF(ikm = mk, salt = zero32, info = "WhisperMessageKeys", 80)`, split
into `(encKey, authKey, iv)`. -/
def deriveMessageKeys (messageKey : Bytes) : Except JsErr (Bytes × Bytes × Bytes) :=
  (hkdf messageKey (List.replicate 32 0) (strBytes "WhisperMessageKeys") 80).map
    (fun output => (output.take 32, (output.drop 32).take 32, (output.drop 64).take 16))

/-- `serializeHeader` from DoubleRatchet.js:
`dh || pn_u32_be(4) || n_u32_be(4)`. -/
def serializeHeader (header : MessageHeader) : Bytes :=
  header.dh ++ be32 header.pn ++ be32 header.n

/-- `initializeSender(masterSecret, bobDHPublicKey)` from
DoubleRatchet.js; `dhSeed` is the entropy of its `generateKeyPair()`
call. -/
def initializeSender (masterSecret bobDHPublicKey dhSeed : Bytes) :
    Except JsErr RatchetState := do
  let dhPair := generateKeyPair dhSeed
  let dhOut ← dh dhPair.privateKey bobDHPublicKey
  let (newRootKey, newChainKey) ← kdfRK masterSecret dhOut
  return { DHs := some dhPair, DHr := some bobDHPublicKey, RK := some newRootKey,
           CKs := some newChainKey, CKr := none,
           Ns := 0, Nr := 0, PN := 0, MKSKIPPED := [] }

/-- `initializeReceiver(masterSecret, bobSignedPreKeyPair)` from
DoubleRatchet.js. -/
def initializeReceiver (masterSecret : Bytes) (bobSignedPreKeyPair : KeyPair) :
    RatchetState :=
  { DHs := some bobSignedPreKeyPair, DHr := none, RK := some masterSecret,
    CKs := none, CKr := none, Ns := 0, Nr := 0, PN := 0, MKSKIPPED := [] }

/-- `ratchetEncrypt(state, plaintext, aad)` from DoubleRatchet.js;
`nonce` is the 12 CSPRNG bytes `encryptAES256GCM` draws.  Reading
`state.CKs`/`state.DHs` when `null` is the JS `TypeError`.  Returns the
new state, the header and the base64 ciphertext. -/
def ratchetEncrypt (state : RatchetState) (plaintext : Bytes)
    (aad : Bytes) (nonce : Bytes) :
    Except JsErr (RatchetState × MessageHeader × String) := do
  match state.CKs, state.DHs with
  | some cks, some dhs =>
    let (messageKey, nextChainKey) := kdfCK cks
    let header : MessageHeader := ⟨dhs.publicKey, state.PN, state.Ns⟩
    let (encKey, _authKey, _iv) ← deriveMessageKeys messageKey
    let headerBytes := serializeHeader header
    let combinedAAD := aad ++ headerBytes
    let encrypted ← encryptAES256GCM plaintext encKey combinedAAD nonce
    let serialized := serializeEncrypted encrypted
    let ciphertext := bytesToBase64 serialized
    return ({ state with
              CKs := some nextChainKey,
              Ns := state.Ns + 1,
              MKSKIPPED := state.MKSKIPPED }, header, ciphertext)
  | _, _ => .error .typeError

/-- `dhRatchetStep(state, header)` from DoubleRatchet.js; `newDhSeed` is
the entropy of its `generateKeyPair()` call. -/
def dhRatchetStep (state : RatchetState) (header : MessageHeader)
    (newDhSeed : Bytes) : Except JsErr RatchetState := do
  match state.DHs with
  | none => .error .typeError
  | some dhs =>
    let newPN := state.Ns
    let dhOut1 ← dh dhs.privateKey header.dh
    -- A JS-`null` root key reaches `hkdfExtract` as a falsy salt, exactly
    -- like the empty byte string, so `getD []` preserves the semantics.
    let (rk1, ckr) ← kdfRK (state.RK.getD []) dhOut1
    let newDHs := generateKeyPair newDhSeed
    let dhOut2 ← dh newDHs.privateKey header.dh
    let (rk2, cks) ← kdfRK rk1 dhOut2
    return { state with
             DHs := some newDHs,
             DHr := some header.dh,
             RK := some rk2,
             CKs := some cks,
             CKr := some ckr,
             Ns := 0, Nr := 0, PN := newPN }

/-- The cache insertion of one `skipMessageKeys` iteration: `Map.set`
under `` `${base64(DHr)}_${Nr}` ``, then evict the first-inserted entry
when the size exceeds `MAX_CACHED_KEYS`. -/
def skipInsertMap (state : RatchetState) (messageKey : Bytes) : SkipMap :=
  let mapKey := bytesToBase64 (state.DHr.getD []) ++ "_" ++ toString state.Nr
  let inserted := mapSet state.MKSKIPPED mapKey messageKey
  if inserted.length > MAX_CACHED_KEYS then
    match mapFirstKey inserted with
    | some firstKey => mapDelete inserted firstKey
    | none => inserted
  else inserted

/-- The `while (newState.Nr < until)` loop of `skipMessageKeys`;
`fuel` bounds the iteration count (`untilN - Nr` at entry suffices). -/
def skipMessageKeysLoop (state : RatchetState) (untilN : Nat) : Nat → RatchetState
  | 0 => state
  | fuel + 1 =>
    if state.Nr < untilN then
      match state.CKr with
      | none => state
      | some ckr =>
        skipMessageKeysLoop
          { state with
            CKr := some (kdfCK ckr).2,
            Nr := state.Nr + 1,
            MKSKIPPED := skipInsertMap state (kdfCK ckr).1 } untilN fuel
    else state

/-- `skipMessageKeys(state, until)` from DoubleRatchet.js: throws
`'refusing to skip'` when `until - Nr > MAX_SKIP` (JS number
subtraction; a negative difference is never `> MAX_SKIP`, matching
truncated `Nat` subtraction), then runs the caching loop. -/
def skipMessageKeys (state : RatchetState) (untilN : Nat) : Except JsErr RatchetState :=
  if untilN - state.Nr > MAX_SKIP then .error .tooManySkipped
  else .ok (skipMessageKeysLoop state untilN (untilN - state.Nr))

/-- `trySkippedMessageKey(state, header)` from DoubleRatchet.js: pop the
cached key under `` `${base64(header.dh)}_${header.n}` `` if present. -/
def trySkippedMessageKey (state : RatchetState) (header : MessageHeader) :
    Option (Bytes × RatchetState) :=
  let mapKey := bytesToBase64 header.dh ++ "_" ++ toString header.n
  match mapGet state.MKSKIPPED mapKey with
  | some messageKey =>
    some (messageKey, { state with MKSKIPPED := mapDelete state.MKSKIPPED mapKey })
  | none => none

/-- The internal `_decrypt(messageKey, ciphertextBytes, header, aad)`
from DoubleRatchet.js. -/
def ratchetDecryptInner (messageKey ciphertextBytes : Bytes)
    (header : MessageHeader) (aad : Bytes) : Except JsErr Bytes := do
  let (encKey, _authKey, _iv) ← deriveMessageKeys messageKey
  let headerBytes := serializeHeader header
  let combinedAAD := aad ++ headerBytes
  let p ← deserializeEncrypted ciphertextBytes
  decryptAES256GCM p.ciphertext p.nonce p.tag encKey combinedAAD

/-- `ratchetDecrypt(state, header, ciphertext, aad)` from
DoubleRatchet.js; `newDhSeed` is the entropy for the `generateKeyPair()`
of a DH ratchet step, when one happens.  All state updates in the source
build fresh objects, and a thrown error aborts before the caller can see
any of them, so failure returns no state: the caller's state is exactly
the pre-call state. -/
def ratchetDecrypt (state : RatchetState) (header : MessageHeader)
    (ciphertext : String) (aad : Bytes) (newDhSeed : Bytes) :
    Except JsErr (RatchetState × Bytes) := do
  let ciphertextBytes := base64ToBytes ciphertext
  match trySkippedMessageKey state header with
  | some (messageKey, poppedState) =>
    let plaintext ← ratchetDecryptInner messageKey ciphertextBytes header aad
    return (poppedState, plaintext)
  | none =>
    let dhPubKeyHex := bytesToBase64 header.dh
    let currentDHrHex := state.DHr.map bytesToBase64
    let state1 ←
      if some dhPubKeyHex ≠ currentDHrHex then do
        let s ← skipMessageKeys state header.pn
        dhRatchetStep s header newDhSeed
      else .ok state
    let state2 ← skipMessageKeys state1 header.n
    match state2.CKr with
    | none => .error .typeError
    | some ckr =>
      let (messageKey, nextChainKey) := kdfCK ckr
      let state3 := { state2 with CKr := some nextChainKey, Nr := state2.Nr + 1 }
      let plaintext ← ratchetDecryptInner messageKey ciphertextBytes header aad
      return (state3, plaintext)

/-! ## Ratchet state (de)serialization — DoubleRatchet.js

`serializeRatchetState` writes base64 strings into a plain JS object;
`deserializeRatchetState` reads it back.  The `JSON.stringify`/`
JSON.parse` pair that the `SessionManager` wraps around these values is
the identity on such records and is modelled as such.  JS object
property enumeration (`Object.entries`, and equally the order preserved
by `JSON`) lists array-index-like keys first in ascending numeric order
and all remaining string keys in creation order; that rule is embedded
in `jsObjectEntries`. -/

/-- The serialized ratchet state (a plain JS object of base64 strings,
`null`s, numbers, and a nested object for the skipped cache in creation
order). -/
structure SerializedRatchetState where
  DHs_pub : Option String
  DHs_priv : Option String
  DHr : Option String
  RK : Option String
  CKs : Option String
  CKr : Option String
  Ns : Nat
  Nr : Nat
  PN : Nat
  MKSKIPPED : List (String × String)
  deriving DecidableEq, Repr

/-- JS string truthiness of an optional field: `null` and `""` are
falsy, every other string truthy. -/
def jsTruthyStr : Option String → Bool
  | none => false
  | some s => s ≠ ""

/-- `o ? base64ToBytes(o) : null` for an optional string field. -/
def jsDecodeOpt (o : Option String) : Option Bytes :=
  if jsTruthyStr o then o.map base64ToBytes else none

/-- `n || 0` on a JS number holding a natural number. -/
def jsOrZero (n : Nat) : Nat := if n = 0 then 0 else n

/-- The numeric value of a decimal digit string. -/
def digitsToNat (l : List Char) : Nat :=
  l.foldl (fun n c => n * 10 + (c.toNat - 48)) 0

/-- Whether a property key is an ECMAScript array index: a canonical
decimal numeral below `2^32 - 1`. -/
def isArrayIndexKey (s : String) : Bool :=
  decide (s.data ≠ []) && s.data.all (fun c => c.isDigit)
    && (decide (s.data = ['0']) || s.data.head? != some '0')
    && decide (digitsToNat s.data < 4294967295)

/-- Numeric value of an array-index key. -/
def keyNatVal (s : String) : Nat := digitsToNat s.data

/-- Insertion into a list sorted by ascending numeric key value. -/
def insertByKeyVal {α : Type} (e : String × α) :
    List (String × α) → List (String × α)
  | [] => [e]
  | f :: rest =>
    if keyNatVal e.1 < keyNatVal f.1 then e :: f :: rest
    else f :: insertByKeyVal e rest

/-- Sort entries by ascending numeric key value (insertion sort). -/
def sortByKeyVal {α : Type} : List (String × α) → List (String × α)
  | [] => []
  | e :: rest => insertByKeyVal e (sortByKeyVal rest)

/-- ECMAScript own-property enumeration order: array-index keys first in
ascending numeric order, then the remaining keys in creation order. -/
def jsObjectEntries {α : Type} (obj : List (String × α)) : List (String × α) :=
  sortByKeyVal (obj.filter (fun e => isArrayIndexKey e.1))
    ++ obj.filter (fun e => !isArrayIndexKey e.1)

/-- `serializeRatchetState` from DoubleRatchet.js. -/
def serializeRatchetState (state : RatchetState) : SerializedRatchetState :=
  { DHs_pub := state.DHs.map (fun p => bytesToBase64 p.publicKey),
    DHs_priv := state.DHs.map (fun p => bytesToBase64 p.privateKey),
    DHr := state.DHr.map bytesToBase64,
    RK := state.RK.map bytesToBase64,
    CKs := state.CKs.map bytesToBase64,
    CKr := state.CKr.map bytesToBase64,
    Ns := state.Ns, Nr := state.Nr, PN := state.PN,
    MKSKIPPED := state.MKSKIPPED.map (fun e => (e.1, bytesToBase64 e.2)) }

/-- `deserializeRatchetState` from DoubleRatchet.js. -/
def deserializeRatchetState (data : SerializedRatchetState) : RatchetState :=
  { DHs :=
      if jsTruthyStr data.DHs_pub && jsTruthyStr data.DHs_priv then
        some ⟨base64ToBytes ((data.DHs_pub).getD ""),
              base64ToBytes ((data.DHs_priv).getD "")⟩
      else none,
    DHr := jsDecodeOpt data.DHr,
    RK := jsDecodeOpt data.RK,
    CKs := jsDecodeOpt data.CKs,
    CKr := jsDecodeOpt data.CKr,
    Ns := jsOrZero data.Ns, Nr := jsOrZero data.Nr, PN := jsOrZero data.PN,
    MKSKIPPED := (jsObjectEntries data.MKSKIPPED).map
      (fun e => (e.1, base64ToBytes e.2)) }

/-! ## `src/crypto/signal/X3DH.js` — receiver side

Only the receiver side is embedded: the claims under verification
exercise `x3dhReceiver` (the sender side additionally needs the Ed25519
signature check, which no claim touches). -/

/-- `X3DH_F`: 32 bytes of `0xFF`. -/
def x3dhF : Bytes := List.replicate 32 0xff

/-- A deserialized X3DH initial-message header. -/
structure X3DHHeader where
  senderIdentityKey : Bytes
  ephemeralPublicKey : Bytes
  signedPreKeyId : Nat
  oneTimePreKeyId : Option Nat
  deriving DecidableEq, Repr

/-- The wire form produced by `serializeX3DHHeader` (base64 strings,
`one_time_pre_key_id` null when absent). -/
structure X3DHHeaderWire where
  sender_identity_key : String
  ephemeral_public_key : String
  signed_pre_key_id : Nat
  one_time_pre_key_id : Option Nat
  deriving DecidableEq, Repr

/-- `deserializeX3DHHeader` from X3DH.js; `id || null` maps an id of `0`
to null. -/
def deserializeX3DHHeader (h : X3DHHeaderWire) : X3DHHeader :=
  { senderIdentityKey := base64ToBytes h.sender_identity_key,
    ephemeralPublicKey := base64ToBytes h.ephemeral_public_key,
    signedPreKeyId := h.signed_pre_key_id,
    oneTimePreKeyId :=
      match h.one_time_pre_key_id with
      | some i => if i = 0 then none else some i
      | none => none }

/-- `x3dhReceiver(bobIdentityKeyPair, bobSignedPreKeyPair,
bobOneTimePreKeyPair, initialMessage)` from X3DH.js: recompute
`DH1..DH3` (and `DH4` when an OPK pair is supplied), derive the master
secret by HKDF with zero salt and info `"WhisperText"`, and return it
with the associated data `IK_A || IK_B`.  No output of any DH is ever
inspected: an all-zero shared secret flows straight into the KDF. -/
def x3dhReceiver (bobIdentityKeyPair bobSignedPreKeyPair : KeyPair)
    (bobOneTimePreKeyPair : Option KeyPair) (initialMessage : X3DHHeader) :
    Except JsErr (Bytes × Bytes) := do
  let dh1 ← dh bobSignedPreKeyPair.privateKey initialMessage.senderIdentityKey
  let dh2 ← dh bobIdentityKeyPair.privateKey initialMessage.ephemeralPublicKey
  let dh3 ← dh bobSignedPreKeyPair.privateKey initialMessage.ephemeralPublicKey
  let dhMaterial := x3dhF ++ dh1 ++ dh2 ++ dh3
  let dhMaterial ←
    match bobOneTimePreKeyPair with
    | some opk => do
      let dh4 ← dh opk.privateKey initialMessage.ephemeralPublicKey
      pure (dhMaterial ++ dh4)
    | none => pure dhMaterial
  let masterSecret ← hkdf dhMaterial (List.replicate 32 0) (strBytes "WhisperText") 32
  let associatedData := initialMessage.senderIdentityKey ++ bobIdentityKeyPair.publicKey
  return (masterSecret, associatedData)

/-! ## `src/crypto/signal/KeyManager.js` and the secure store

The store is a flat string-keyed map.  The values the embedded paths
read and write are JSON records; `JSON.stringify`/`JSON.parse` round-trip
these records exactly, so the store holds the structured values
directly. -/

/-- A stored SPK/OPK record (base64 key material as persisted). -/
structure PreKeyRecord where
  keyId : Nat
  publicKey : String
  privateKey : String
  signature : Option String
  createdAt : Nat
  deriving DecidableEq, Repr

/-- A persisted session record (`_saveSession`'s `serializable`). -/
structure StoredSession where
  userId : String
  ratchetState : SerializedRatchetState
  remoteIdentityKey : Option String
  isOutbound : Bool
  createdAt : Nat
  x3dhHeader : Option X3DHHeaderWire
  deriving DecidableEq, Repr

/-- A value in the secure store. -/
inductive StoreVal where
  /-- A stored session record. -/
  | session (s : StoredSession)
  /-- A stored SPK/OPK record. -/
  | prekey (r : PreKeyRecord)
  /-- The stored OPK id list (`signal_opk_ids`). -/
  | ids (l : List Nat)
  /-- Any other stored string (current SPK id, rotation timestamp). -/
  | txt (s : String)
  deriving DecidableEq, Repr

/-- The in-memory session object of the `SessionManager` cache. -/
structure Session where
  userId : String
  ratchetState : RatchetState
  remoteIdentityKey : Option Bytes
  isOutbound : Bool
  createdAt : Nat
  x3dhHeader : Option X3DHHeaderWire
  deriving DecidableEq, Repr

/-- The identity key pair held by the `KeyManager` (`{ dh, sign }`). -/
structure IdentityKeyPair where
  dh : KeyPair
  sign : KeyPair
  deriving DecidableEq, Repr

/-- The mutable state the embedded `KeyManager`/`SessionManager` paths
touch: the secure store, the in-memory session cache, and the in-memory
identity key pair. -/
structure World where
  storage : List (String × StoreVal)
  sessions : List (String × Session)
  identity : IdentityKeyPair
  deriving DecidableEq, Repr

/-- `SecureStorage.getItem`. -/
def storageGet (w : World) (k : String) : Option StoreVal := mapGet w.storage k

/-- `KeyManager.getSignedPreKey(keyId)`: read and decode the stored SPK
record; throws `'Signed pre-key ... not found'` when absent. -/
def getSignedPreKey (w : World) (keyId : Nat) : Except JsErr (Nat × KeyPair) :=
  match storageGet w ("signal_spk_" ++ toString keyId) with
  | some (.prekey r) =>
    .ok (r.keyId, ⟨base64ToBytes r.publicKey, base64ToBytes r.privateKey⟩)
  | _ => .error .spkNotFound

/-- `KeyManager.consumeOneTimePreKey(keyId)`: read and decode the stored
OPK record, delete it, and drop its id from `signal_opk_ids`; throws
`'One-time pre-key ... not found'` when absent.  The storage writes
happen before the function returns, so they survive any later failure of
the caller. -/
def consumeOneTimePreKey (w : World) (keyId : Nat) :
    Except JsErr (Nat × KeyPair) × World :=
  match storageGet w ("signal_opk_" ++ toString keyId) with
  | some (.prekey r) =>
    let storage1 := mapDelete w.storage ("signal_opk_" ++ toString keyId)
    let storage2 :=
      match mapGet storage1 "signal_opk_ids" with
      | some (.ids l) => mapSet storage1 "signal_opk_ids" (.ids (l.filter (· ≠ keyId)))
      | _ => storage1
    (.ok (r.keyId, ⟨base64ToBytes r.publicKey, base64ToBytes r.privateKey⟩),
     { w with storage := storage2 })
  | _ => (.error .opkNotFound, w)

/-- The `keyId = Date.now() + i` loop body of `generateOneTimePreKeys`:
generate `count` pairs, store each record, collect `(keyId, publicKey)`.
`now` is the clock reading (modelled constant across the batch) and
`seed i` the CSPRNG entropy of the `i`-th `generateKeyPair()`. -/
def genOpkLoop (storage : List (String × StoreVal)) (now : Nat)
    (seed : Nat → Bytes) (i : Nat) :
    Nat → (List (Nat × Bytes) × List Nat × List (String × StoreVal))
  | 0 => ([], [], storage)
  | remaining + 1 =>
    let opkPair := generateKeyPair (seed i)
    let keyId := now + i
    let record : PreKeyRecord :=
      { keyId := keyId, publicKey := bytesToBase64 opkPair.publicKey,
        privateKey := bytesToBase64 opkPair.privateKey,
        signature := none, createdAt := now }
    let storage1 := mapSet storage ("signal_opk_" ++ toString keyId) (.prekey record)
    let (keys, ids, storageN) := genOpkLoop storage1 now seed (i + 1) remaining
    ((keyId, opkPair.publicKey) :: keys, keyId :: ids, storageN)

/-- `KeyManager.generateOneTimePreKeys(count)`: read the existing id
list, append `count` fresh keys with ids `Date.now() + i`, persist the
extended id list, and return the `(keyId, publicKey)` pairs. -/
def generateOneTimePreKeys (w : World) (count now : Nat) (seed : Nat → Bytes) :
    List (Nat × Bytes) × World :=
  let existingIds :=
    match storageGet w "signal_opk_ids" with
    | some (.ids l) => l
    | _ => []
  let (newKeys, newIds, storage1) := genOpkLoop w.storage now seed 0 count
  let allIds := existingIds ++ newIds
  let storage2 := mapSet storage1 "signal_opk_ids" (.ids allIds)
  (newKeys, { w with storage := storage2 })

/-- `KeyManager.generateSignedPreKey()`'s id assignment:
`const spkId = Date.now()`. -/
def generateSignedPreKeyId (now : Nat) : Nat := now

/-! ## `src/crypto/signal/SessionManager.js` — inbound path

The embedded operations are the ones the claims exercise:
`_saveSession`, `loadSession`, `createInboundSession`, `decryptMessage`
and `_computeSafetyNumber`.  Each `await`ed storage operation completes
before the next statement runs, so a thrown error leaves every earlier
write in place; the embedding returns the world as mutated so far
alongside the error. -/

/-- `_buildSessionId(userId, deviceId)`. -/
def buildSessionId (userId : String) (deviceId : Nat) : String :=
  userId ++ "_" ++ toString deviceId

/-- `_saveSession(sessionId, session)`: update the in-memory cache with
the live object and the store with the serialized record. -/
def saveSession (w : World) (sessionId : String) (session : Session) : World :=
  let serializable : StoredSession :=
    { userId := session.userId,
      ratchetState := serializeRatchetState session.ratchetState,
      remoteIdentityKey := session.remoteIdentityKey.map bytesToBase64,
      isOutbound := session.isOutbound,
      createdAt := session.createdAt,
      x3dhHeader := session.x3dhHeader }
  { w with
    sessions := mapSet w.sessions sessionId session,
    storage := mapSet w.storage ("signal_session_" ++ sessionId) (.session serializable) }

/-- `loadSession(userId, deviceId = 0)`: cache hit, else read, parse and
deserialize from the store and populate the cache. -/
def loadSession (w : World) (userId : String) : Option Session × World :=
  let sessionId := buildSessionId userId 0
  match mapGet w.sessions sessionId with
  | some s => (some s, w)
  | none =>
    match storageGet w ("signal_session_" ++ sessionId) with
    | some (.session data) =>
      let session : Session :=
        { userId := data.userId,
          ratchetState := deserializeRatchetState data.ratchetState,
          remoteIdentityKey := jsDecodeOpt data.remoteIdentityKey,
          isOutbound := data.isOutbound,
          createdAt := data.createdAt,
          x3dhHeader := data.x3dhHeader }
      (some session, { w with sessions := mapSet w.sessions sessionId session })
    | _ => (none, w)

/-- `createInboundSession(senderUserId, x3dhHeader, signedPreKeyId,
oneTimePreKeyId)` from SessionManager.js: look up the SPK, consume the
referenced OPK (truthy ids only), run `x3dhReceiver`, initialize the
receiver ratchet and persist the session.  The OPK consumption and the
session save are ordinary sequential storage writes — there is no
transaction around them.  `now` is the `Date.now()` reading. -/
def createInboundSession (w : World) (senderUserId : String)
    (xh : X3DHHeaderWire) (signedPreKeyId : Nat) (oneTimePreKeyId : Option Nat)
    (now : Nat) : Except JsErr (String × RatchetState) × World :=
  match getSignedPreKey w signedPreKeyId with
  | .error e => (.error e, w)
  | .ok (_, localSPK) =>
    let (opkRes, w1) :=
      match oneTimePreKeyId with
      | some id =>
        if id ≠ 0 then
          match consumeOneTimePreKey w id with
          | (.error e, w') => (Except.error e, w')
          | (.ok (_, kp), w') => (Except.ok (some kp), w')
        else (Except.ok none, w)
      | none => (Except.ok none, w)
    match opkRes with
    | .error e => (.error e, w1)
    | .ok localOPK =>
      let header := deserializeX3DHHeader xh
      match x3dhReceiver w1.identity.dh localSPK localOPK header with
      | .error e => (.error e, w1)
      | .ok (masterSecret, _ad) =>
        let ratchetState := initializeReceiver masterSecret localSPK
        let sessionId := buildSessionId senderUserId 0
        let w2 := saveSession w1 sessionId
          { userId := senderUserId, ratchetState := ratchetState,
            remoteIdentityKey := some header.senderIdentityKey,
            isOutbound := false, createdAt := now, x3dhHeader := none }
        (.ok (sessionId, ratchetState), w2)

/-- The `{ dh, pn, n }` wire header of a payload (base64 `dh`). -/
structure WireHeader where
  dh : String
  pn : Nat
  n : Nat
  deriving DecidableEq, Repr

/-- A wire message payload as built by `encryptMessage`. -/
structure WirePayload where
  type : String
  header : WireHeader
  ciphertext : String
  x3dh_header : Option X3DHHeaderWire
  deriving DecidableEq, Repr

/-- `decryptMessage(senderUserId, payload)` from SessionManager.js:
load (or, for an `'initial'` payload, create) the session, run
`ratchetDecrypt`, and persist the updated state only when it succeeds.
`now` is the clock reading and `dhSeed` the entropy for a DH ratchet
step inside `ratchetDecrypt`, if one happens.  The returned plaintext
stays in bytes (`TextEncoder`/`TextDecoder` are mutually inverse). -/
def decryptMessage (w : World) (senderUserId : String) (payload : WirePayload)
    (now : Nat) (dhSeed : Bytes) : Except JsErr Bytes × World :=
  let (session0, w1) := loadSession w senderUserId
  let afterCreate : Except JsErr (Option Session) × World :=
    if session0.isNone ∧ payload.type = "initial" then
      match payload.x3dh_header with
      | none => (.error .typeError, w1)
      | some xh =>
        match createInboundSession w1 senderUserId xh
            xh.signed_pre_key_id xh.one_time_pre_key_id now with
        | (.error e, w2) => (.error e, w2)
        | (.ok _, w2) =>
          let (session1, w3) := loadSession w2 senderUserId
          (.ok session1, w3)
    else (.ok session0, w1)
  match afterCreate with
  | (.error e, w4) => (.error e, w4)
  | (.ok none, w4) => (.error .noSession, w4)
  | (.ok (some session), w4) =>
    let header : MessageHeader :=
      ⟨base64ToBytes payload.header.dh, payload.header.pn, payload.header.n⟩
    match ratchetDecrypt session.ratchetState header payload.ciphertext [] dhSeed with
    | .error e => (.error e, w4)
    | .ok (newState, plaintext) =>
      let session1 := { session with ratchetState := newState }
      let w5 := saveSession w4 (buildSessionId senderUserId 0) session1
      (.ok plaintext, w5)

/-! ## `_computeSafetyNumber` — SessionManager.js -/

/-- JS `ToInt32` (`x | 0`): reduce to the signed 32-bit range. -/
def jsToInt32 (x : Int) : Int :=
  let m := x % 4294967296
  if m ≥ 2147483648 then m - 4294967296 else m

/-- One iteration `hash = ((hash << 5) - hash + charCode) | 0` of the
safety-number hash loop (the shift itself is a 32-bit operation). -/
def safetyHashStep (hash : Int) (c : Nat) : Int :=
  jsToInt32 (jsToInt32 (hash * 32) - hash + c)

/-- `String.prototype.padStart(10, '0')`. -/
def padStart10 (s : String) : String :=
  ⟨List.replicate (10 - s.length) '0' ++ s.data⟩

/-- `.match(/.{1,5}/g)`: split into chunks of five characters (the
final chunk may be shorter). -/
def chunks5 : List Char → List String
  | a :: b :: c :: d :: e :: rest => ⟨[a, b, c, d, e]⟩ :: chunks5 rest
  | [] => []
  | cs => [⟨cs⟩]

/-- `_computeSafetyNumber(remoteIK, localIK)` from SessionManager.js:
base64 the (unsorted) concatenation `localIK || remoteIK`, run the
32-bit string hash over the base64 text, take the absolute value, pad
to ten decimal digits and group by five. -/
def computeSafetyNumber (remoteIK localIK : Bytes) : String :=
  let combined := localIK ++ remoteIK
  let base := bytesToBase64 combined
  let hash := base.data.foldl (fun h ch => safetyHashStep h ch.toNat) 0
  let num := hash.natAbs
  String.intercalate " " (chunks5 (padStart10 (toString num)).data)

/-! ## Derived notions used by the claims -/

/-- `s` is a fresh ratchet state produced by one of the two
initializers. -/
def RatchetInit (s : RatchetState) : Prop :=
  (∃ masterSecret bobDHPublicKey dhSeed,
    initializeSender masterSecret bobDHPublicKey dhSeed = .ok s) ∨
  (∃ masterSecret spk, initializeReceiver masterSecret spk = s)

/-- One successful public-operation step from `s` to `s'`: a
`ratchetEncrypt` or a `ratchetDecrypt` that returned `s'`. -/
def RatchetStepTo (s s' : RatchetState) : Prop :=
  (∃ pt aad nonce hd ct, ratchetEncrypt s pt aad nonce = .ok (s', hd, ct)) ∨
  (∃ hd ct aad seed pt, ratchetDecrypt s hd ct aad seed = .ok (s', pt))

/-- Ratchet states reachable through the module's public operations:
the two initializers and successful encrypt/decrypt steps. -/
inductive ReachableRatchet : RatchetState → Prop where
  /-- A fresh state. -/
  | init (s : RatchetState) (h : RatchetInit s) : ReachableRatchet s
  /-- The state after a successful encrypt or decrypt. -/
  | step (s s' : RatchetState) (hs : ReachableRatchet s)
      (h : RatchetStepTo s s') : ReachableRatchet s'

/-- The chain key after `k` symmetric-ratchet steps (`kdfCK` iterated on
its `nextChainKey` output). -/
def ckChain (ck : Bytes) : Nat → Bytes
  | 0 => ck
  | k + 1 => ckChain (kdfCK ck).2 k

/-- The sender state after `k` consecutive `ratchetEncrypt` calls of the
same plaintext and aad, message `i` drawing nonce `nonce i`. -/
def encryptIter (state : RatchetState) (plaintext aad : Bytes)
    (nonce : Nat → Bytes) : Nat → Except JsErr RatchetState
  | 0 => .ok state
  | k + 1 => do
    let s ← encryptIter state plaintext aad nonce k
    let (s', _, _) ← ratchetEncrypt s plaintext aad (nonce k)
    return s'

/-- The pure value of `kdfRK` (which, at output length 64, never takes
its error branch). -/
def kdfRKp (rootKey dhOut : Bytes) : Bytes × Bytes :=
  match kdfRK rootKey dhOut with
  | .ok p => p
  | .error _ => ([], [])

/-- The pure value of `deriveMessageKeys` (which, at output length 80,
never takes its error branch). -/
def deriveMessageKeysP (messageKey : Bytes) : Bytes × Bytes × Bytes :=
  match deriveMessageKeys messageKey with
  | .ok p => p
  | .error _ => ([], [], [])

/-- The value of a successful `Except`, with a fallback default. -/
def exVal {α : Type} (d : α) : Except JsErr α → α
  | .ok a => a
  | .error _ => d

/-- A throwaway ratchet state used only as an `exVal` default. -/
def defaultRatchetState : RatchetState := initializeReceiver [] ⟨[], []⟩

/-- The sender state of the canonical matched pair: `initializeSender`
on the shared master secret and the receiver's signed-pre-key public
(`generateKeyPair sSeed`), drawing `aSeed` as DH entropy. -/
def senderInit (master sSeed aSeed : Bytes) : RatchetState :=
  exVal defaultRatchetState
    (initializeSender master (generateKeyPair sSeed).publicKey aSeed)

/-- The `k`-th message (zero-indexed) of a sender that keeps encrypting
the same plaintext: the result of `ratchetEncrypt` after `k` earlier
calls. -/
def encryptNth (state : RatchetState) (plaintext aad : Bytes)
    (nonce : Nat → Bytes) (k : Nat) :
    Except JsErr (RatchetState × MessageHeader × String) := do
  let s ← encryptIter state plaintext aad nonce k
  ratchetEncrypt s plaintext aad (nonce k)

/-- Serialization well-formedness of an optional byte field: absent, or
a nonempty list of bytes (an empty `Uint8Array` serializes to `""`,
which the deserializer's truthiness test turns into `null`). -/
def wfOptBytes : Option Bytes → Bool
  | none => true
  | some l => !l.isEmpty && l.all (· < 256)

/-- Serialization well-formedness of a ratchet state: every present byte
field is a nonempty list of bytes, and no skipped-cache key is an
ECMAScript array index (object property enumeration would re-order such
keys numerically ahead of the others). -/
def wfRatchetState (s : RatchetState) : Bool :=
  (match s.DHs with
   | none => true
   | some kp => !kp.publicKey.isEmpty && kp.publicKey.all (· < 256) &&
       (!kp.privateKey.isEmpty && kp.privateKey.all (· < 256))) &&
  wfOptBytes s.DHr && wfOptBytes s.RK && wfOptBytes s.CKs && wfOptBytes s.CKr &&
  s.MKSKIPPED.all (fun e => !isArrayIndexKey e.1 && e.2.all (· < 256))

/-- A key-manager world with nothing stored yet. -/
def emptyWorld : World := ⟨[], [], ⟨⟨[], []⟩, ⟨[], []⟩⟩⟩

/-- A first one-time-pre-key batch: two keys generated at clock reading
1000. -/
def opkBatch1 : List (Nat × Bytes) × World :=
  generateOneTimePreKeys emptyWorld 2 1000 (fun _ => [1])

/-- A second batch on the resulting world: one key generated at clock
reading 1001 (one millisecond later). -/
def opkBatch2 : List (Nat × Bytes) × World :=
  generateOneTimePreKeys opkBatch1.2 1 1001 (fun _ => [1])

/-- A ratchet state whose skipped-key cache was filled under the keys
`"1"` then `"0"` (in that insertion order): both are canonical numeric
strings, i.e. ECMAScript array-index property keys. -/
def badCacheState : RatchetState :=
  { DHs := some ⟨[1], [2]⟩, DHr := none, RK := none, CKs := none, CKr := none,
    Ns := 0, Nr := 0, PN := 0,
    MKSKIPPED := [("1", List.replicate 32 3), ("0", List.replicate 32 4)] }

/-- A serialization-well-formed sample ratchet state. -/
def wfSampleState : RatchetState :=
  { DHs := some ⟨[1], [2]⟩, DHr := some [3], RK := some [4], CKs := none,
    CKr := none, Ns := 1, Nr := 2, PN := 3, MKSKIPPED := [("k_1", [5])] }

/-- A stored signed-pre-key record with id 5 (small key material keeps
the concrete instances cheap to evaluate). -/
def spkRec0 : PreKeyRecord := ⟨5, bytesToBase64 [9], bytesToBase64 [2], none, 100⟩

/-- A stored one-time pre-key record with id 7. -/
def opkRec0 : PreKeyRecord := ⟨7, bytesToBase64 [8], bytesToBase64 [4], none, 100⟩

/-- A world holding the SPK record 5, the OPK record 7 and the OPK id
list `[7]`, with no sessions. -/
def inboundWorld : World :=
  ⟨[("signal_spk_5", .prekey spkRec0), ("signal_opk_7", .prekey opkRec0),
    ("signal_opk_ids", .ids [7])], [], ⟨⟨[3], [3]⟩, ⟨[], []⟩⟩⟩

/-- An X3DH wire header referencing SPK 5 and OPK 7. -/
def xh0 : X3DHHeaderWire := ⟨bytesToBase64 [1], bytesToBase64 [4], 5, some 7⟩

/-- An `'initial'`-tagged wire payload whose inner ciphertext decodes to
27 bytes — one short of the 28-byte nonce-plus-tag minimum, so the inner
Double Ratchet decrypt must fail. -/
def shortPayload : WirePayload :=
  ⟨"initial", ⟨bytesToBase64 [9], 0, 0⟩, bytesToBase64 (List.replicate 27 0), some xh0⟩

/-! # Theorems -/

/-! ## Byte encoding basics -/

/-- `natToBytesLE` always emits exactly `len` bytes. -/
theorem natToBytesLE_length (len x : Nat) : (natToBytesLE len x).length = len := by
  induction len generalizing x with
  | zero => rfl
  | succ n ih => simp [natToBytesLE, ih]

/-- `natToBytesLE` emits genuine bytes. -/
theorem natToBytesLE_lt (len x : Nat) : ∀ b ∈ natToBytesLE len x, b < 256 := by
  induction len generalizing x with
  | zero => simp [natToBytesLE]
  | succ n ih =>
    intro b hb
    simp only [natToBytesLE, List.mem_cons] at hb
    rcases hb with h | h
    · omega
    · exact ih _ b h

/-- Little-endian decode inverts encode below `256 ^ len`. -/
theorem bytesToNatLE_natToBytesLE (len x : Nat) (h : x < 256 ^ len) :
    bytesToNatLE (natToBytesLE len x) = x := by
  induction len generalizing x with
  | zero => simp [natToBytesLE, bytesToNatLE]; omega
  | succ n ih =>
    have hdiv : x / 256 < 256 ^ n := by
      rw [Nat.div_lt_iff_lt_mul (by norm_num)]
      calc x < 256 ^ (n + 1) := h
        _ = 256 ^ n * 256 := by ring
    simp [natToBytesLE, bytesToNatLE, ih (x / 256) hdiv]
    omega

/-- `natToBytesLE len` is injective below `256 ^ len`. -/
theorem natToBytesLE_inj (len : Nat) {x y : Nat} (hx : x < 256 ^ len)
    (hy : y < 256 ^ len) (h : natToBytesLE len x = natToBytesLE len y) : x = y := by
  have := congrArg bytesToNatLE h
  rwa [bytesToNatLE_natToBytesLE len x hx, bytesToNatLE_natToBytesLE len y hy] at this

/-! ## Base64 -/

/-- Decoding a base64 character inverts encoding a sextet. -/
theorem charSextet_sextetChar : ∀ s < 64, charSextet (sextetChar s) = s := by decide

/-- No sextet encodes to the padding character. -/
theorem sextetChar_ne_pad : ∀ s < 64, sextetChar s ≠ '=' := by decide

/-- Induction on byte strings three bytes at a time (the base64 group
size). -/
theorem bytesThreeInduction {P : Bytes → Prop} (h0 : P []) (h1 : ∀ a, P [a])
    (h2 : ∀ a b, P [a, b]) (h3 : ∀ a b c rest, P rest → P (a :: b :: c :: rest)) :
    ∀ xs, P xs := by
  have key : ∀ n xs, List.length xs ≤ n → P xs := by
    intro n
    induction n with
    | zero =>
      intro xs h
      have : xs = [] := List.eq_nil_of_length_eq_zero (by omega)
      subst this; exact h0
    | succ n ih =>
      intro xs h
      match xs with
      | [] => exact h0
      | [a] => exact h1 a
      | [a, b] => exact h2 a b
      | a :: b :: c :: rest =>
        exact h3 a b c rest (ih rest (by simp at h; omega))
  intro xs
  exact key xs.length xs le_rfl

/-- `atob` inverts `btoa` on byte strings. -/
theorem base64ToBytes_bytesToBase64 (xs : Bytes) (h : ∀ b ∈ xs, b < 256) :
    base64ToBytes (bytesToBase64 xs) = xs := by
  simp only [base64ToBytes, bytesToBase64]
  induction xs using bytesThreeInduction with
  | h0 => rfl
  | h1 a =>
    have ha : a < 256 := h a (by simp)
    simp only [b64Encode, b64Decode, if_pos rfl]
    rw [charSextet_sextetChar (a / 4) (by omega),
        charSextet_sextetChar (a % 4 * 16) (by omega)]
    simp; omega
  | h2 a b =>
    have ha : a < 256 := h a (by simp)
    have hb : b < 256 := h b (by simp)
    simp only [b64Encode, b64Decode]
    rw [if_neg (sextetChar_ne_pad (b % 16 * 4) (by omega))]
    simp only [if_true]
    rw [charSextet_sextetChar (a / 4) (by omega),
        charSextet_sextetChar (a % 4 * 16 + b / 16) (by omega),
        charSextet_sextetChar (b % 16 * 4) (by omega)]
    simp; constructor <;> omega
  | h3 a b c rest ih =>
    have ha : a < 256 := h a (by simp)
    have hb : b < 256 := h b (by simp)
    have hc : c < 256 := h c (by simp)
    have hrest : ∀ b ∈ rest, b < 256 := fun x hx => h x (by simp [hx])
    simp only [b64Encode, b64Decode]
    rw [if_neg (sextetChar_ne_pad (b % 16 * 4 + c / 64) (by omega)),
        if_neg (sextetChar_ne_pad (c % 64) (by omega))]
    rw [charSextet_sextetChar (a / 4) (by omega),
        charSextet_sextetChar (a % 4 * 16 + b / 16) (by omega),
        charSextet_sextetChar (b % 16 * 4 + c / 64) (by omega),
        charSextet_sextetChar (c % 64) (by omega)]
    rw [ih hrest]
    congr 1 <;> [skip; congr 1] <;> [omega; omega; skip] <;> congr 1 <;> omega

/-- `bytesToBase64` is injective on byte strings. -/
theorem bytesToBase64_inj {xs ys : Bytes} (hx : ∀ b ∈ xs, b < 256)
    (hy : ∀ b ∈ ys, b < 256) (h : bytesToBase64 xs = bytesToBase64 ys) : xs = ys := by
  have := congrArg base64ToBytes h
  rwa [base64ToBytes_bytesToBase64 xs hx, base64ToBytes_bytesToBase64 ys hy] at this

/-! ## The curve model -/

/-- The model modulus is positive. -/
theorem curveQ_pos : 0 < curveQ := by norm_num [curveQ]

/-- The model modulus fits in 32 bytes. -/
theorem curveQ_lt : curveQ < 256 ^ 32 := by norm_num [curveQ]

/-- Exponentiation modulo `curveQ` is a commutative two-step ladder. -/
theorem powMod_comm (x aN bN : Nat) :
    (x ^ bN % curveQ) ^ aN % curveQ = (x ^ aN % curveQ) ^ bN % curveQ := by
  rw [← Nat.pow_mod, ← Nat.pow_mod, ← Nat.pow_mul, ← Nat.pow_mul, Nat.mul_comm]

/-- Diffie-Hellman agreement in the model: multiplying one's own scalar
into the peer's public point is symmetric. -/
theorem scalarMult_comm (a b : Bytes) :
    scalarMult a (scalarMult b curveBase) = scalarMult b (scalarMult a curveBase) := by
  have hdec : ∀ y : Nat, bytesToNatLE (natToBytesLE 32 (y % curveQ)) = y % curveQ :=
    fun y => bytesToNatLE_natToBytesLE 32 _ (lt_trans (Nat.mod_lt _ curveQ_pos) curveQ_lt)
  show natToBytesLE 32
      (bytesToNatLE (natToBytesLE 32 (bytesToNatLE curveBase ^ bytesToNatLE b % curveQ))
        ^ bytesToNatLE a % curveQ)
    = natToBytesLE 32
      (bytesToNatLE (natToBytesLE 32 (bytesToNatLE curveBase ^ bytesToNatLE a % curveQ))
        ^ bytesToNatLE b % curveQ)
  rw [hdec, hdec]
  exact congrArg (natToBytesLE 32) (powMod_comm _ _ _)

/-- `dh` never throws: its falsiness guard is dead code, so it returns
the raw `scalarMult` output for every input. -/
theorem dh_eq (privateKey publicKey : Bytes) :
    dh privateKey publicKey = .ok (scalarMult privateKey publicKey) := rfl

/-- The all-zero point is absorbing: a nonzero scalar times the zero
point is the all-zero 32-byte output (the X25519 low-order behaviour the
model reproduces). -/
theorem scalarMult_zeroPoint (priv : Bytes) (h : bytesToNatLE priv ≠ 0) :
    scalarMult priv (List.replicate 32 0) = List.replicate 32 0 := by
  unfold scalarMult
  have h0 : bytesToNatLE (List.replicate 32 0) = 0 := by decide
  rw [h0, Nat.zero_pow (by omega), Nat.zero_mod]
  decide

/-! ## The secretbox model -/

/-- Keystream bytes are bytes. -/
theorem sbPad_lt (base j : Nat) : sbPad base j < 256 := Nat.mod_lt _ (by norm_num)

/-- The stream cipher preserves length. -/
theorem sbEncBytes_length (base j : Nat) (pt : Bytes) :
    (sbEncBytes base j pt).length = pt.length := by
  induction pt generalizing j with
  | nil => rfl
  | cons b rest ih => simp [sbEncBytes, ih]

/-- The stream cipher emits bytes. -/
theorem sbEncBytes_lt (base j : Nat) (pt : Bytes) :
    ∀ b ∈ sbEncBytes base j pt, b < 256 := by
  induction pt generalizing j with
  | nil => simp [sbEncBytes]
  | cons b rest ih =>
    intro x hx
    simp only [sbEncBytes, List.mem_cons] at hx
    rcases hx with h | h
    · omega
    · exact ih _ x h

/-- Stream decryption inverts stream encryption on byte strings. -/
theorem sbDecBytes_sbEncBytes (base j : Nat) (pt : Bytes) (h : ∀ b ∈ pt, b < 256) :
    sbDecBytes base j (sbEncBytes base j pt) = pt := by
  induction pt generalizing j with
  | nil => rfl
  | cons b rest ih =>
    have hb : b < 256 := h b (by simp)
    have hp : sbPad base j < 256 := sbPad_lt base j
    simp only [sbEncBytes, sbDecBytes, ih (j + 1) (fun x hx => h x (by simp [hx])),
      List.cons.injEq, and_true]
    omega

/-- Opening a sealed box returns the plaintext. -/
theorem secretboxOpen_secretbox (pt nonce key : Bytes) (h : ∀ b ∈ pt, b < 256) :
    secretboxOpen (secretbox pt nonce key) nonce key = some pt := by
  unfold secretbox secretboxOpen
  have hlen : (natToBytesLE 16
      (sbTag key nonce (sbEncBytes (sbStreamBase key nonce) 0 pt))).length = 16 :=
    natToBytesLE_length _ _
  rw [List.take_left' hlen, List.drop_left' hlen, if_pos rfl,
      sbDecBytes_sbEncBytes _ _ _ h]

/-- Each MAC step stays below the modulus. -/
theorem sbFoldStep_lt (acc b : Nat) : sbFoldStep acc b < sbM :=
  Nat.mod_lt _ (by norm_num [sbM])

/-- The MAC accumulator stays below the modulus. -/
theorem foldl_sbFoldStep_lt (l : Bytes) (acc : Nat) (h : acc < sbM) :
    l.foldl sbFoldStep acc < sbM := by
  induction l generalizing acc with
  | nil => simpa using h
  | cons b rest ih => exact ih _ (sbFoldStep_lt acc b)

/-- The MAC radix is invertible modulo the modulus. -/
theorem sbR_coprime : Nat.gcd sbM sbR = 1 := by norm_num [sbR, sbM]

/-- Any byte successor is below the MAC modulus. -/
theorem succ_lt_sbM {b : Nat} (hb : b < 256) : b + 1 < sbM :=
  lt_of_lt_of_le (show b + 1 < 257 by omega) (by norm_num [sbM])

/-- A MAC step is injective in the accumulator. -/
theorem sbFoldStep_inj (b : Nat) {a1 a2 : Nat} (h1 : a1 < sbM) (h2 : a2 < sbM)
    (h : sbFoldStep a1 b = sbFoldStep a2 b) : a1 = a2 := by
  unfold sbFoldStep at h
  have hmod : a1 * sbR + (b + 1) ≡ a2 * sbR + (b + 1) [MOD sbM] := h
  have hmul : a1 * sbR ≡ a2 * sbR [MOD sbM] := hmod.add_right_cancel'
  have hcl : a1 ≡ a2 [MOD sbM] := Nat.ModEq.cancel_right_of_coprime sbR_coprime hmul
  unfold Nat.ModEq at hcl
  rwa [Nat.mod_eq_of_lt h1, Nat.mod_eq_of_lt h2] at hcl

/-- The MAC fold is injective in the accumulator. -/
theorem foldl_sbFoldStep_inj (l : Bytes) {a1 a2 : Nat} (h1 : a1 < sbM)
    (h2 : a2 < sbM) (hne : a1 ≠ a2) :
    l.foldl sbFoldStep a1 ≠ l.foldl sbFoldStep a2 := by
  induction l generalizing a1 a2 with
  | nil => simpa using hne
  | cons b rest ih =>
    simp only [List.foldl_cons]
    exact ih (sbFoldStep_lt a1 b) (sbFoldStep_lt a2 b)
      (fun hcontra => hne (sbFoldStep_inj b h1 h2 hcontra))

/-- A MAC step separates distinct bytes. -/
theorem sbFoldStep_ne_byte (acc : Nat) {b b' : Nat} (hb : b < 256) (hb' : b' < 256)
    (hne : b ≠ b') : sbFoldStep acc b ≠ sbFoldStep acc b' := by
  unfold sbFoldStep
  intro h
  have hmod : acc * sbR + (b + 1) ≡ acc * sbR + (b' + 1) [MOD sbM] := h
  have hc : b + 1 ≡ b' + 1 [MOD sbM] := hmod.add_left_cancel'
  unfold Nat.ModEq at hc
  rw [Nat.mod_eq_of_lt (succ_lt_sbM hb), Nat.mod_eq_of_lt (succ_lt_sbM hb')] at hc
  omega

/-- Changing any single byte of the MACed text changes the accumulator. -/
theorem foldl_sbFoldStep_set_ne (ct : Bytes) (i v acc : Nat) (hacc : acc < sbM)
    (hct : ∀ b ∈ ct, b < 256) (hv : v < 256) (hi : i < ct.length)
    (hne : v ≠ ct.getD i 0) :
    (ct.set i v).foldl sbFoldStep acc ≠ ct.foldl sbFoldStep acc := by
  induction ct generalizing i acc with
  | nil => simp at hi
  | cons b rest ih =>
    cases i with
    | zero =>
      simp only [List.set, List.foldl_cons]
      have hb : b < 256 := hct b (by simp)
      have hvb : v ≠ b := by rwa [List.getD_cons_zero] at hne
      exact foldl_sbFoldStep_inj rest (sbFoldStep_lt acc v) (sbFoldStep_lt acc b)
        (sbFoldStep_ne_byte acc hv hb hvb)
    | succ i =>
      simp only [List.set, List.foldl_cons]
      exact ih i (sbFoldStep acc b) (sbFoldStep_lt acc b)
        (fun x hx => hct x (by simp [hx]))
        (by simpa using hi) (by rwa [List.getD_cons_succ] at hne)

/-- Changing any single byte of the ciphertext changes the tag. -/
theorem sbTag_set_ne (key nonce ct : Bytes) (i v : Nat)
    (hct : ∀ b ∈ ct, b < 256) (hv : v < 256) (hi : i < ct.length)
    (hne : v ≠ ct.getD i 0) :
    sbTag key nonce (ct.set i v) ≠ sbTag key nonce ct := by
  unfold sbTag
  intro h
  have hf1 : (ct.set i v).foldl sbFoldStep 0 < sbM :=
    foldl_sbFoldStep_lt _ 0 (by norm_num [sbM])
  have hf2 : ct.foldl sbFoldStep 0 < sbM :=
    foldl_sbFoldStep_lt _ 0 (by norm_num [sbM])
  have hmod : bytesToNatLE key + bytesToNatLE nonce + (ct.set i v).foldl sbFoldStep 0
      ≡ bytesToNatLE key + bytesToNatLE nonce + ct.foldl sbFoldStep 0 [MOD sbM] := h
  have hc := hmod.add_left_cancel'
  unfold Nat.ModEq at hc
  rw [Nat.mod_eq_of_lt hf1, Nat.mod_eq_of_lt hf2] at hc
  exact foldl_sbFoldStep_set_ne ct i v 0 (by norm_num [sbM]) hct hv hi hne hc

/-- The modulus fits in the 16-byte tag. -/
theorem sbM_lt : sbM < 256 ^ 16 := by norm_num [sbM]

/-- Opening a sealed box whose ciphertext body was altered in any single
byte fails. -/
theorem secretboxOpen_set_ne (pt nonce key : Bytes) (i v : Nat)
    (hpt : ∀ b ∈ pt, b < 256) (hv : v < 256)
    (hi : i < (sbEncBytes (sbStreamBase key nonce) 0 pt).length)
    (hne : v ≠ (sbEncBytes (sbStreamBase key nonce) 0 pt).getD i 0) :
    secretboxOpen
      (natToBytesLE 16 (sbTag key nonce (sbEncBytes (sbStreamBase key nonce) 0 pt))
        ++ (sbEncBytes (sbStreamBase key nonce) 0 pt).set i v) nonce key = none := by
  unfold secretboxOpen
  have hlen : (natToBytesLE 16
      (sbTag key nonce (sbEncBytes (sbStreamBase key nonce) 0 pt))).length = 16 :=
    natToBytesLE_length _ _
  rw [List.take_left' hlen, List.drop_left' hlen, if_neg]
  intro h
  have htag := natToBytesLE_inj 16
    (lt_trans (Nat.mod_lt _ (by norm_num [sbM])) sbM_lt)
    (lt_trans (Nat.mod_lt _ (by norm_num [sbM])) sbM_lt) h
  exact sbTag_set_ne key nonce _ i v
    (sbEncBytes_lt _ _ _) hv hi hne htag.symm

/-! ## Hash and KDF output shapes -/

/-- SHA-256 always emits 32 bytes. -/
theorem sha256_length (data : Bytes) : (sha256 data).length = 32 := by
  unfold sha256
  obtain ⟨a, b, c, d, e, f, g, h⟩ :=
    (toBlocks (sha256pad data)).foldl shaCompress
      (0x6a09e667, 0xbb67ae85, 0x3c6ef372, 0xa54ff53a,
       0x510e527f, 0x9b05688c, 0x1f83d9ab, 0x5be0cd19)
  simp [be32]

/-- HMAC-SHA-256 always emits 32 bytes. -/
theorem hmacSHA256_length (key data : Bytes) : (hmacSHA256 key data).length = 32 := by
  unfold hmacSHA256
  exact sha256_length _

/-- The HKDF expansion loop emits `32 * rounds` bytes. -/
theorem hkdfExpandLoop_length (prk info T : Bytes) (i rounds : Nat) :
    (hkdfExpandLoop prk info T i rounds).length = 32 * rounds := by
  induction rounds generalizing T i with
  | zero => rfl
  | succ n ih =>
    simp only [hkdfExpandLoop, List.length_append, hmacSHA256_length, ih]
    ring

/-- `kdfRK` never throws (output length 64 is two HKDF rounds). -/
theorem kdfRK_eq (rootKey dhOut : Bytes) :
    kdfRK rootKey dhOut = .ok (kdfRKp rootKey dhOut) := rfl

/-- `deriveMessageKeys` never throws (output length 80 is three HKDF
rounds). -/
theorem deriveMessageKeys_eq (messageKey : Bytes) :
    deriveMessageKeys messageKey = .ok (deriveMessageKeysP messageKey) := rfl

/-- The root half of a `kdfRK` output is 32 bytes. -/
theorem kdfRKp_fst_length (rootKey dhOut : Bytes) :
    (kdfRKp rootKey dhOut).1.length = 32 := by
  unfold kdfRKp kdfRK hkdf hkdfExpand
  simp [hkdfExpandLoop_length, Except.map]

/-- The chain half of a `kdfRK` output is 32 bytes. -/
theorem kdfRKp_snd_length (rootKey dhOut : Bytes) :
    (kdfRKp rootKey dhOut).2.length = 32 := by
  unfold kdfRKp kdfRK hkdf hkdfExpand
  simp [hkdfExpandLoop_length, Except.map]

/-- The encryption key of a message-key derivation is 32 bytes. -/
theorem deriveMessageKeysP_fst_length (messageKey : Bytes) :
    (deriveMessageKeysP messageKey).1.length = 32 := by
  unfold deriveMessageKeysP deriveMessageKeys hkdf hkdfExpand
  simp [hkdfExpandLoop_length, Except.map]

/-! ## Ratchet operation equations -/

/-- Explicit form of `encryptAES256GCM` under a well-sized key. -/
theorem encryptAES256GCM_eq (pt key aad nonce : Bytes) (hk : key.length = 32) :
    encryptAES256GCM pt key aad nonce = .ok
      ⟨(secretbox pt (nonce ++ List.replicate (24 - nonce.length) 0) key).drop 16,
       nonce,
       (secretbox pt (nonce ++ List.replicate (24 - nonce.length) 0) key).take 16⟩ := by
  unfold encryptAES256GCM
  rw [if_neg (by simp [hk])]

/-- Explicit form of a successful `ratchetEncrypt`: advance the sending
chain, emit the header `(DHs.pub, PN, Ns)` and the base64 of
`nonce || secretbox(plaintext)` under the derived message key. -/
theorem ratchetEncrypt_eq (s : RatchetState) (cks : Bytes) (dhs : KeyPair)
    (hcks : s.CKs = some cks) (hdhs : s.DHs = some dhs) (pt aad nonce : Bytes) :
    ratchetEncrypt s pt aad nonce = .ok
      ({ s with CKs := some (kdfCK cks).2, Ns := s.Ns + 1 },
       ⟨dhs.publicKey, s.PN, s.Ns⟩,
       bytesToBase64 (nonce ++
         secretbox pt (nonce ++ List.replicate (24 - nonce.length) 0)
           (deriveMessageKeysP (kdfCK cks).1).1)) := by
  unfold ratchetEncrypt
  rw [hcks, hdhs]
  simp only [deriveMessageKeys_eq, Bind.bind, Except.bind]
  rw [encryptAES256GCM_eq _ _ _ _ (deriveMessageKeysP_fst_length _)]
  simp only [serializeEncrypted, pure, Except.pure]
  rw [List.append_assoc, List.take_append_drop]

/-- A generated key pair carries its seed as the private key. -/
theorem generateKeyPair_privateKey (seed : Bytes) :
    (generateKeyPair seed).privateKey = seed := rfl

/-- A generated key pair's public key is the base-point multiple. -/
theorem generateKeyPair_publicKey (seed : Bytes) :
    (generateKeyPair seed).publicKey = scalarMult seed curveBase := rfl

/-- Surjective pairing for rewriting stuck `match`es on KDF outputs. -/
theorem pairEta {α β : Type} (p : α × β) : p = (p.1, p.2) := rfl

/-- Explicit form of `initializeSender`: it never throws. -/
theorem initializeSender_eq (master bobPub dhSeed : Bytes) :
    initializeSender master bobPub dhSeed = .ok
      { DHs := some (generateKeyPair dhSeed), DHr := some bobPub,
        RK := some (kdfRKp master (scalarMult dhSeed bobPub)).1,
        CKs := some (kdfRKp master (scalarMult dhSeed bobPub)).2,
        CKr := none, Ns := 0, Nr := 0, PN := 0, MKSKIPPED := [] } := by
  unfold initializeSender
  simp only [dh_eq, Bind.bind, Except.bind, kdfRK_eq, generateKeyPair_privateKey]
  rw [pairEta (kdfRKp master (scalarMult dhSeed bobPub))]
  rfl

/-- Explicit form of `dhRatchetStep` when `DHs` is present: it never
throws, and performs the two `kdfRK` half-steps. -/
theorem dhRatchetStep_eq (s : RatchetState) (dhs : KeyPair) (hdhs : s.DHs = some dhs)
    (header : MessageHeader) (newDhSeed : Bytes) :
    dhRatchetStep s header newDhSeed = .ok
      { s with
        DHs := some (generateKeyPair newDhSeed),
        DHr := some header.dh,
        RK := some (kdfRKp (kdfRKp (s.RK.getD []) (scalarMult dhs.privateKey header.dh)).1
          (scalarMult newDhSeed header.dh)).1,
        CKs := some (kdfRKp (kdfRKp (s.RK.getD []) (scalarMult dhs.privateKey header.dh)).1
          (scalarMult newDhSeed header.dh)).2,
        CKr := some (kdfRKp (s.RK.getD []) (scalarMult dhs.privateKey header.dh)).2,
        Ns := 0, Nr := 0, PN := s.Ns } := by
  unfold dhRatchetStep
  rw [hdhs]
  simp only [dh_eq, Bind.bind, Except.bind, kdfRK_eq, generateKeyPair_privateKey]
  rw [pairEta (kdfRKp (s.RK.getD []) (scalarMult dhs.privateKey header.dh))]
  rw [pairEta (kdfRKp (kdfRKp (s.RK.getD []) (scalarMult dhs.privateKey header.dh)).1
    (scalarMult newDhSeed header.dh))]
  rfl

/-- The skip loop with enough fuel: advances `Nr` to the target,
iterates the receiving chain key, and touches nothing else but the
skipped-key cache. -/
theorem skipMessageKeysLoop_spec (fuel : Nat) (s : RatchetState) (untilN : Nat)
    (ck : Bytes) (hck : s.CKr = some ck) (hle : s.Nr ≤ untilN)
    (hfuel : untilN - s.Nr ≤ fuel) :
    ∃ m, skipMessageKeysLoop s untilN fuel =
      { s with CKr := some (ckChain ck (untilN - s.Nr)), Nr := untilN, MKSKIPPED := m } := by
  induction fuel generalizing s ck with
  | zero =>
    have heq : untilN = s.Nr := by omega
    subst heq
    refine ⟨s.MKSKIPPED, ?_⟩
    simp only [skipMessageKeysLoop, Nat.sub_self, ckChain]
    cases s
    simp_all
  | succ fuel ih =>
    by_cases hlt : s.Nr < untilN
    · rw [skipMessageKeysLoop, if_pos hlt, hck]
      obtain ⟨m, hm⟩ := ih
        { s with
          CKr := some (kdfCK ck).2,
          Nr := s.Nr + 1,
          MKSKIPPED := skipInsertMap s (kdfCK ck).1 }
        (kdfCK ck).2 rfl (by simp; omega) (by simp; omega)
      refine ⟨m, ?_⟩
      simp only at hm
      have hstep : untilN - s.Nr = (untilN - (s.Nr + 1)) + 1 := by omega
      rw [hstep]
      simpa [ckChain] using hm
    · have heq : untilN = s.Nr := by omega
      subst heq
      refine ⟨s.MKSKIPPED, ?_⟩
      rw [skipMessageKeysLoop, if_neg hlt]
      simp only [Nat.sub_self, ckChain]
      cases s
      simp_all

/-- Core path of `ratchetDecrypt` on a fresh receiver state (empty
cache, unknown remote DH key) for a header within the skip ceiling: the
call performs the DH ratchet, advances the receiving chain to the
header's position, and reduces to the inner AEAD open under the message
key at chain position `header.n`. -/
theorem ratchetDecrypt_first_eq (bob : RatchetState) (dhsB : KeyPair) (rk : Bytes)
    (hskip : bob.MKSKIPPED = []) (hdhr : bob.DHr = none) (hdhs : bob.DHs = some dhsB)
    (hrk : bob.RK = some rk) (hnr : bob.Nr = 0)
    (header : MessageHeader) (hpn : header.pn = 0) (hn : header.n ≤ MAX_SKIP)
    (ct : String) (aad seed : Bytes) :
    ∃ m, ratchetDecrypt bob header ct aad seed =
      match ratchetDecryptInner
          (kdfCK (ckChain (kdfRKp rk (scalarMult dhsB.privateKey header.dh)).2 header.n)).1
          (base64ToBytes ct) header aad with
      | .error e => .error e
      | .ok pt => .ok
        ({ bob with
           DHs := some (generateKeyPair seed),
           DHr := some header.dh,
           RK := some (kdfRKp (kdfRKp rk (scalarMult dhsB.privateKey header.dh)).1
             (scalarMult seed header.dh)).1,
           CKs := some (kdfRKp (kdfRKp rk (scalarMult dhsB.privateKey header.dh)).1
             (scalarMult seed header.dh)).2,
           CKr := some (kdfCK (ckChain
             (kdfRKp rk (scalarMult dhsB.privateKey header.dh)).2 header.n)).2,
           Ns := 0, Nr := header.n + 1, PN := bob.Ns, MKSKIPPED := m }, pt) := by
  have htry : trySkippedMessageKey bob header = none := by
    simp [trySkippedMessageKey, mapGet, hskip]
  have hskip0 : skipMessageKeys bob header.pn = .ok bob := by
    unfold skipMessageKeys
    rw [hpn, hnr]
    simp [skipMessageKeysLoop]
  have hratchet := dhRatchetStep_eq bob dhsB hdhs header seed
  rw [hrk] at hratchet
  simp only [Option.getD_some] at hratchet
  obtain ⟨m, hm⟩ := skipMessageKeysLoop_spec header.n
    { bob with
      DHs := some (generateKeyPair seed),
      DHr := some header.dh,
      RK := some (kdfRKp (kdfRKp rk (scalarMult dhsB.privateKey header.dh)).1
        (scalarMult seed header.dh)).1,
      CKs := some (kdfRKp (kdfRKp rk (scalarMult dhsB.privateKey header.dh)).1
        (scalarMult seed header.dh)).2,
      CKr := some (kdfRKp rk (scalarMult dhsB.privateKey header.dh)).2,
      Ns := 0, Nr := 0, PN := bob.Ns }
    header.n (kdfRKp rk (scalarMult dhsB.privateKey header.dh)).2 rfl
    (by simp) (by simp)
  refine ⟨m, ?_⟩
  have hngt : ¬(header.n - 0 > MAX_SKIP) := by omega
  have hngt0 : ¬((0 : Nat) - 0 > MAX_SKIP) := by omega
  have hngt2 : ¬(MAX_SKIP < header.n) := by omega
  unfold ratchetDecrypt
  rw [htry]
  simp only at hm
  cases hInner : ratchetDecryptInner
      (kdfCK (ckChain (kdfRKp rk (scalarMult dhsB.privateKey header.dh)).2 header.n)).1
      (base64ToBytes ct) header aad with
  | error e =>
    simp [hdhr, hpn, hnr, hratchet, Bind.bind, Except.bind, skipMessageKeys,
      skipMessageKeysLoop, hngt, hngt0, hngt2, hm, hInner]
  | ok pt =>
    simp [hdhr, hpn, hnr, hratchet, Bind.bind, Except.bind, skipMessageKeys,
      skipMessageKeysLoop, hngt, hngt0, hngt2, hm, hInner]
    rfl

/-- Unfolding the chain iteration from the right. -/
theorem ckChain_succ (ck : Bytes) (k : Nat) :
    ckChain ck (k + 1) = (kdfCK (ckChain ck k)).2 := by
  induction k generalizing ck with
  | zero => simp only [ckChain]
  | succ k ih =>
    have h1 : ckChain ck (k + 1 + 1) = ckChain (kdfCK ck).2 (k + 1) := by
      simp only [ckChain]
    have h2 : ckChain ck (k + 1) = ckChain (kdfCK ck).2 k := by
      simp only [ckChain]
    rw [h1, ih, h2]

/-- The sender state after `k` consecutive encrypts: the chain key is
iterated `k` times and `Ns` advances by `k`; nothing else changes. -/
theorem encryptIter_eq (s : RatchetState) (ck : Bytes) (dhs : KeyPair)
    (hck : s.CKs = some ck) (hdhs : s.DHs = some dhs) (pt aad : Bytes)
    (nonce : Nat → Bytes) (k : Nat) :
    encryptIter s pt aad nonce k = .ok
      { s with CKs := some (ckChain ck k), Ns := s.Ns + k } := by
  induction k with
  | zero =>
    show Except.ok s = _
    cases s
    simp_all [ckChain]
  | succ k ih =>
    show (do
      let s' ← encryptIter s pt aad nonce k
      let (s'', _, _) ← ratchetEncrypt s' pt aad (nonce k)
      return s'') = _
    rw [ih]
    simp only [Bind.bind, Except.bind]
    rw [ratchetEncrypt_eq
      { s with CKs := some (ckChain ck k), Ns := s.Ns + k }
      (ckChain ck k) dhs rfl hdhs pt aad (nonce k)]
    simp [← ckChain_succ, Nat.add_assoc]
    rfl

/-- The `k`-th message of a steady sender: header `(DHs.pub, PN, Ns+k)`
and ciphertext sealed under the `k`-th message key of the chain. -/
theorem encryptNth_eq (s : RatchetState) (ck : Bytes) (dhs : KeyPair)
    (hck : s.CKs = some ck) (hdhs : s.DHs = some dhs) (pt aad : Bytes)
    (nonce : Nat → Bytes) (k : Nat) :
    encryptNth s pt aad nonce k = .ok
      ({ s with CKs := some (ckChain ck (k + 1)), Ns := s.Ns + k + 1 },
       ⟨dhs.publicKey, s.PN, s.Ns + k⟩,
       bytesToBase64 (nonce k ++
         secretbox pt (nonce k ++ List.replicate (24 - (nonce k).length) 0)
           (deriveMessageKeysP (kdfCK (ckChain ck k)).1).1)) := by
  unfold encryptNth
  rw [encryptIter_eq s ck dhs hck hdhs pt aad nonce k]
  simp only [Bind.bind, Except.bind]
  rw [ratchetEncrypt_eq
    { s with CKs := some (ckChain ck k), Ns := s.Ns + k }
    (ckChain ck k) dhs rfl hdhs pt aad (nonce k)]
  simp [← ckChain_succ, Nat.add_assoc]

/-- `deserializeEncrypted` splits a well-formed frame. -/
theorem deserializeEncrypted_append (nonce tag body : Bytes)
    (hn : nonce.length = 12) (ht : tag.length = 16) :
    deserializeEncrypted (nonce ++ (tag ++ body)) = .ok ⟨body, nonce, tag⟩ := by
  unfold deserializeEncrypted
  rw [if_neg (by simp [hn, ht]; omega)]
  have h1 : List.take 12 (nonce ++ (tag ++ body)) = nonce := List.take_left' hn
  have h2 : List.drop 12 (nonce ++ (tag ++ body)) = tag ++ body := List.drop_left' hn
  have h3 : nonce ++ (tag ++ body) = (nonce ++ tag) ++ body := by
    rw [List.append_assoc]
  have h4 : List.drop 28 ((nonce ++ tag) ++ body) = body :=
    List.drop_left' (by simp [hn, ht])
  rw [h2, List.take_left' ht, h1, h3, h4]

/-- The inner `_decrypt` succeeds on the exact payload the encryptor
sealed under the same message key, for any header and aad. -/
theorem ratchetDecryptInner_of_encrypt (mk pt nonce : Bytes)
    (header : MessageHeader) (aad : Bytes)
    (hpt : ∀ b ∈ pt, b < 256) (hnlen : nonce.length = 12) :
    ratchetDecryptInner mk
      (nonce ++ secretbox pt (nonce ++ List.replicate (24 - nonce.length) 0)
        (deriveMessageKeysP mk).1)
      header aad = .ok pt := by
  have hopen := secretboxOpen_secretbox pt
    (nonce ++ List.replicate (24 - nonce.length) 0) (deriveMessageKeysP mk).1 hpt
  unfold ratchetDecryptInner
  unfold secretbox at hopen ⊢
  simp only [deriveMessageKeys_eq, Bind.bind, Except.bind]
  rw [deserializeEncrypted_append _ _ _ hnlen (natToBytesLE_length _ _)]
  unfold decryptAES256GCM
  simp [deriveMessageKeysP_fst_length, hopen]

/-- The inner `_decrypt` rejects a frame whose ciphertext body was
altered in any single byte, for any header and aad: the recomputed tag
cannot match. -/
theorem ratchetDecryptInner_tampered (mk pt nonce : Bytes)
    (header : MessageHeader) (aad : Bytes) (i v : Nat)
    (hpt : ∀ b ∈ pt, b < 256) (hnlen : nonce.length = 12)
    (hi : i < pt.length) (hv : v < 256)
    (hne : v ≠ (sbEncBytes (sbStreamBase (deriveMessageKeysP mk).1
      (nonce ++ List.replicate (24 - nonce.length) 0)) 0 pt).getD i 0) :
    ratchetDecryptInner mk
      (nonce ++
        (natToBytesLE 16 (sbTag (deriveMessageKeysP mk).1
            (nonce ++ List.replicate (24 - nonce.length) 0)
            (sbEncBytes (sbStreamBase (deriveMessageKeysP mk).1
              (nonce ++ List.replicate (24 - nonce.length) 0)) 0 pt)) ++
         (sbEncBytes (sbStreamBase (deriveMessageKeysP mk).1
            (nonce ++ List.replicate (24 - nonce.length) 0)) 0 pt).set i v))
      header aad = .error .authFailed := by
  have hib : i < (sbEncBytes (sbStreamBase (deriveMessageKeysP mk).1
      (nonce ++ List.replicate (24 - nonce.length) 0)) 0 pt).length := by
    rw [sbEncBytes_length]; exact hi
  have hopen := secretboxOpen_set_ne pt
    (nonce ++ List.replicate (24 - nonce.length) 0) (deriveMessageKeysP mk).1
    i v hpt hv hib hne
  unfold ratchetDecryptInner
  simp only [deriveMessageKeys_eq, Bind.bind, Except.bind]
  rw [deserializeEncrypted_append _ _ _ hnlen (natToBytesLE_length _ _)]
  unfold decryptAES256GCM
  simp [deriveMessageKeysP_fst_length, hopen]

/-- Sealed boxes consist of bytes. -/
theorem secretbox_lt (pt nonce key : Bytes) : ∀ b ∈ secretbox pt nonce key, b < 256 := by
  unfold secretbox
  intro b hb
  rcases List.mem_append.mp hb with h | h
  · exact natToBytesLE_lt _ _ b h
  · exact sbEncBytes_lt _ _ _ b h

/-- Explicit form of the canonical sender state. -/
theorem senderInit_eq (master sSeed aSeed : Bytes) :
    senderInit master sSeed aSeed =
      { DHs := some (generateKeyPair aSeed),
        DHr := some (generateKeyPair sSeed).publicKey,
        RK := some (kdfRKp master
          (scalarMult aSeed (generateKeyPair sSeed).publicKey)).1,
        CKs := some (kdfRKp master
          (scalarMult aSeed (generateKeyPair sSeed).publicKey)).2,
        CKr := none, Ns := 0, Nr := 0, PN := 0, MKSKIPPED := [] } := by
  unfold senderInit
  rw [initializeSender_eq]
  rfl

/-- The `k`-th message of the canonical sender, fully explicit. -/
theorem pairEncrypt_eq (master pt aad : Bytes) (sSeed aSeed : Bytes)
    (nonce : Nat → Bytes) (k : Nat) :
    encryptNth (senderInit master sSeed aSeed) pt aad nonce k = .ok
      ({ senderInit master sSeed aSeed with
         CKs := some (ckChain (kdfRKp master
           (scalarMult aSeed (generateKeyPair sSeed).publicKey)).2 (k + 1)),
         Ns := k + 1 },
       ⟨(generateKeyPair aSeed).publicKey, 0, k⟩,
       bytesToBase64 (nonce k ++
         secretbox pt (nonce k ++ List.replicate (24 - (nonce k).length) 0)
           (deriveMessageKeysP (kdfCK (ckChain (kdfRKp master
             (scalarMult aSeed (generateKeyPair sSeed).publicKey)).2 k)).1).1)) := by
  rw [encryptNth_eq (senderInit master sSeed aSeed)
    (kdfRKp master (scalarMult aSeed (generateKeyPair sSeed).publicKey)).2
    (generateKeyPair aSeed)
    (by rw [senderInit_eq]) (by rw [senderInit_eq]) pt aad nonce k]
  simp [senderInit_eq]

/-- The canonical receiver decrypts the canonical sender's `k`-th
message (given alone) to the original plaintext, and its post-state is
fully characterised. -/
theorem pairDecrypt_ok (master pt aadD : Bytes) (sSeed aSeed newSeed : Bytes)
    (nonceK : Bytes) (k : Nat)
    (hk : k ≤ MAX_SKIP) (hpt : ∀ b ∈ pt, b < 256)
    (hnlen : nonceK.length = 12) (hnb : ∀ b ∈ nonceK, b < 256) :
    ∃ m, ratchetDecrypt (initializeReceiver master (generateKeyPair sSeed))
      ⟨(generateKeyPair aSeed).publicKey, 0, k⟩
      (bytesToBase64 (nonceK ++
        secretbox pt (nonceK ++ List.replicate (24 - nonceK.length) 0)
          (deriveMessageKeysP (kdfCK (ckChain (kdfRKp master
            (scalarMult aSeed (generateKeyPair sSeed).publicKey)).2 k)).1).1))
      aadD newSeed = .ok
      ({ DHs := some (generateKeyPair newSeed),
         DHr := some (generateKeyPair aSeed).publicKey,
         RK := some (kdfRKp (kdfRKp master
             (scalarMult aSeed (generateKeyPair sSeed).publicKey)).1
           (scalarMult newSeed (generateKeyPair aSeed).publicKey)).1,
         CKs := some (kdfRKp (kdfRKp master
             (scalarMult aSeed (generateKeyPair sSeed).publicKey)).1
           (scalarMult newSeed (generateKeyPair aSeed).publicKey)).2,
         CKr := some (kdfCK (ckChain (kdfRKp master
           (scalarMult aSeed (generateKeyPair sSeed).publicKey)).2 k)).2,
         Ns := 0, Nr := k + 1, PN := 0, MKSKIPPED := m }, pt) := by
  have hcomm : scalarMult sSeed (generateKeyPair aSeed).publicKey
      = scalarMult aSeed (generateKeyPair sSeed).publicKey := by
    simp only [generateKeyPair_publicKey]
    exact scalarMult_comm sSeed aSeed
  obtain ⟨m, hm⟩ := ratchetDecrypt_first_eq
    (initializeReceiver master (generateKeyPair sSeed))
    (generateKeyPair sSeed) master rfl rfl rfl rfl rfl
    ⟨(generateKeyPair aSeed).publicKey, 0, k⟩ rfl hk
    (bytesToBase64 (nonceK ++
      secretbox pt (nonceK ++ List.replicate (24 - nonceK.length) 0)
        (deriveMessageKeysP (kdfCK (ckChain (kdfRKp master
          (scalarMult aSeed (generateKeyPair sSeed).publicKey)).2 k)).1).1))
    aadD newSeed
  refine ⟨m, ?_⟩
  rw [hm]
  have hbytes : base64ToBytes (bytesToBase64 (nonceK ++
      secretbox pt (nonceK ++ List.replicate (24 - nonceK.length) 0)
        (deriveMessageKeysP (kdfCK (ckChain (kdfRKp master
          (scalarMult aSeed (generateKeyPair sSeed).publicKey)).2 k)).1).1))
      = nonceK ++
      secretbox pt (nonceK ++ List.replicate (24 - nonceK.length) 0)
        (deriveMessageKeysP (kdfCK (ckChain (kdfRKp master
          (scalarMult aSeed (generateKeyPair sSeed).publicKey)).2 k)).1).1 := by
    apply base64ToBytes_bytesToBase64
    intro b hb
    rcases List.mem_append.mp hb with h | h
    · exact hnb b h
    · exact secretbox_lt _ _ _ b h
  rw [hbytes, generateKeyPair_privateKey, hcomm]
  rw [ratchetDecryptInner_of_encrypt _ pt nonceK _ aadD hpt hnlen]
  simp [initializeReceiver]

/-- The canonical receiver rejects the canonical sender's `k`-th message
whenever its ciphertext body has been altered in any single byte:
`ratchetDecrypt` fails with the authentication error (and, being a pure
function, yields no post-state at all). -/
theorem pairDecrypt_tampered (master pt aadD : Bytes) (sSeed aSeed newSeed : Bytes)
    (nonceK : Bytes) (k i v : Nat)
    (hk : k ≤ MAX_SKIP) (hpt : ∀ b ∈ pt, b < 256)
    (hnlen : nonceK.length = 12) (hnb : ∀ b ∈ nonceK, b < 256)
    (hi : i < pt.length) (hv : v < 256)
    (hne : v ≠ (sbEncBytes (sbStreamBase
      (deriveMessageKeysP (kdfCK (ckChain (kdfRKp master
        (scalarMult aSeed (generateKeyPair sSeed).publicKey)).2 k)).1).1
      (nonceK ++ List.replicate (24 - nonceK.length) 0)) 0 pt).getD i 0) :
    ratchetDecrypt (initializeReceiver master (generateKeyPair sSeed))
      ⟨(generateKeyPair aSeed).publicKey, 0, k⟩
      (bytesToBase64 (nonceK ++
        (natToBytesLE 16 (sbTag
            (deriveMessageKeysP (kdfCK (ckChain (kdfRKp master
              (scalarMult aSeed (generateKeyPair sSeed).publicKey)).2 k)).1).1
            (nonceK ++ List.replicate (24 - nonceK.length) 0)
            (sbEncBytes (sbStreamBase
              (deriveMessageKeysP (kdfCK (ckChain (kdfRKp master
                (scalarMult aSeed (generateKeyPair sSeed).publicKey)).2 k)).1).1
              (nonceK ++ List.replicate (24 - nonceK.length) 0)) 0 pt)) ++
         (sbEncBytes (sbStreamBase
            (deriveMessageKeysP (kdfCK (ckChain (kdfRKp master
              (scalarMult aSeed (generateKeyPair sSeed).publicKey)).2 k)).1).1
            (nonceK ++ List.replicate (24 - nonceK.length) 0)) 0 pt).set i v)))
      aadD newSeed = .error .authFailed := by
  have hcomm : scalarMult sSeed (generateKeyPair aSeed).publicKey
      = scalarMult aSeed (generateKeyPair sSeed).publicKey := by
    simp only [generateKeyPair_publicKey]
    exact scalarMult_comm sSeed aSeed
  obtain ⟨m, hm⟩ := ratchetDecrypt_first_eq
    (initializeReceiver master (generateKeyPair sSeed))
    (generateKeyPair sSeed) master rfl rfl rfl rfl rfl
    ⟨(generateKeyPair aSeed).publicKey, 0, k⟩ rfl hk
    (bytesToBase64 (nonceK ++
      (natToBytesLE 16 (sbTag
          (deriveMessageKeysP (kdfCK (ckChain (kdfRKp master
            (scalarMult aSeed (generateKeyPair sSeed).publicKey)).2 k)).1).1
          (nonceK ++ List.replicate (24 - nonceK.length) 0)
          (sbEncBytes (sbStreamBase
            (deriveMessageKeysP (kdfCK (ckChain (kdfRKp master
              (scalarMult aSeed (generateKeyPair sSeed).publicKey)).2 k)).1).1
            (nonceK ++ List.replicate (24 - nonceK.length) 0)) 0 pt)) ++
       (sbEncBytes (sbStreamBase
          (deriveMessageKeysP (kdfCK (ckChain (kdfRKp master
            (scalarMult aSeed (generateKeyPair sSeed).publicKey)).2 k)).1).1
          (nonceK ++ List.replicate (24 - nonceK.length) 0)) 0 pt).set i v)))
    aadD newSeed
  rw [hm]
  have hbytes := base64ToBytes_bytesToBase64 (nonceK ++
      (natToBytesLE 16 (sbTag
          (deriveMessageKeysP (kdfCK (ckChain (kdfRKp master
            (scalarMult aSeed (generateKeyPair sSeed).publicKey)).2 k)).1).1
          (nonceK ++ List.replicate (24 - nonceK.length) 0)
          (sbEncBytes (sbStreamBase
            (deriveMessageKeysP (kdfCK (ckChain (kdfRKp master
              (scalarMult aSeed (generateKeyPair sSeed).publicKey)).2 k)).1).1
            (nonceK ++ List.replicate (24 - nonceK.length) 0)) 0 pt)) ++
       (sbEncBytes (sbStreamBase
          (deriveMessageKeysP (kdfCK (ckChain (kdfRKp master
            (scalarMult aSeed (generateKeyPair sSeed).publicKey)).2 k)).1).1
          (nonceK ++ List.replicate (24 - nonceK.length) 0)) 0 pt).set i v))
    (by
      intro b hb
      rcases List.mem_append.mp hb with h | h
      · exact hnb b h
      · rcases List.mem_append.mp h with h2 | h2
        · exact natToBytesLE_lt _ _ b h2
        · rcases List.mem_or_eq_of_mem_set h2 with h3 | h3
          · exact sbEncBytes_lt _ _ _ b h3
          · omega)
  rw [hbytes, generateKeyPair_privateKey, hcomm]
  rw [ratchetDecryptInner_tampered _ pt nonceK _ aadD i v hpt hnlen hi hv hne]

/-! ## Map and enumeration lemmas -/

/-- `Map.get` after `Map.set` of the same key. -/
theorem mapGet_mapSet_self {α : Type} (m : List (String × α)) (k : String) (v : α) :
    mapGet (mapSet m k v) k = some v := by
  unfold mapSet
  split
  · case isTrue h =>
    induction m with
    | nil => simp at h
    | cons e t ih =>
      by_cases he : e.1 = k
      · simp [mapGet, he, List.find?_cons_of_pos]
      · simp only [List.any_cons, Bool.or_eq_true, decide_eq_true_eq] at h
        have ht : t.any (fun e => decide (e.1 = k)) = true := by
          simpa using h.resolve_left he
        have hstep := ih ht
        simp only [mapGet] at hstep ⊢
        rw [List.map_cons, if_neg he,
          List.find?_cons_of_neg _ (by simpa using he)]
        exact hstep
  · case isFalse h =>
    induction m with
    | nil => simp [mapGet]
    | cons e t ih =>
      simp only [List.any_cons, Bool.or_eq_true, decide_eq_true_eq, not_or] at h
      have hstep := ih (by simpa using h.2)
      simp only [mapGet] at hstep ⊢
      rw [List.cons_append, List.find?_cons_of_neg _ (by simpa using h.1)]
      exact hstep

/-- `Map.get` after `Map.set` of a different key. -/
theorem mapGet_mapSet_ne {α : Type} (m : List (String × α)) (k : String) (v : α)
    (q : String) (h : q ≠ k) : mapGet (mapSet m k v) q = mapGet m q := by
  unfold mapSet
  split
  · case isTrue hAny =>
    clear hAny
    induction m with
    | nil => simp
    | cons e t ih =>
      simp only [mapGet] at ih ⊢
      by_cases he : e.1 = k
      · rw [List.map_cons, if_pos he,
          List.find?_cons_of_neg _ (by simpa using Ne.symm h),
          List.find?_cons_of_neg _ (by simp [he]; exact Ne.symm h)]
        exact ih
      · rw [List.map_cons, if_neg he]
        by_cases hq : e.1 = q
        · rw [List.find?_cons_of_pos _ (by simpa using hq),
            List.find?_cons_of_pos _ (by simpa using hq)]
        · rw [List.find?_cons_of_neg _ (by simpa using hq),
            List.find?_cons_of_neg _ (by simpa using hq)]
          exact ih
  · case isFalse hAny =>
    clear hAny
    induction m with
    | nil => simp [mapGet, List.find?, Ne.symm h]
    | cons e t ih =>
      simp only [mapGet] at ih ⊢
      rw [List.cons_append]
      by_cases hq : e.1 = q
      · rw [List.find?_cons_of_pos _ (by simpa using hq),
          List.find?_cons_of_pos _ (by simpa using hq)]
      · rw [List.find?_cons_of_neg _ (by simpa using hq),
          List.find?_cons_of_neg _ (by simpa using hq)]
        exact ih

/-- `Map.get` after `Map.delete` of the same key. -/
theorem mapGet_mapDelete_self {α : Type} (m : List (String × α)) (k : String) :
    mapGet (mapDelete m k) k = none := by
  unfold mapDelete
  induction m with
  | nil => simp [mapGet]
  | cons e t ih =>
    by_cases he : e.1 = k
    · simpa [List.filter, he] using ih
    · simp only [mapGet] at ih ⊢
      rw [List.filter_cons_of_pos (by simpa using he),
        List.find?_cons_of_neg _ (by simpa using he)]
      exact ih

/-! ## HKDF success and the X3DH receiver -/

/-- `hkdf` succeeds whenever at most `255 * 32` bytes are requested. -/
theorem hkdf_ok (ikm salt info : Bytes) (len : Nat) (h : (len + 31) / 32 ≤ 255) :
    hkdf ikm salt info len
      = .ok ((hkdfExpandLoop (hkdfExtract salt ikm) info [] 1 ((len + 31) / 32)).take len) := by
  unfold hkdf hkdfExpand
  rw [if_neg (by omega)]

/-- `x3dhReceiver` always succeeds: no DH output is ever inspected and
the 32-byte HKDF request is within range, so no input — low-order or
otherwise — is rejected. -/
theorem x3dhReceiver_ok (idk spk : KeyPair) (opk : Option KeyPair)
    (hdr : X3DHHeader) :
    ∃ ms ad, x3dhReceiver idk spk opk hdr = .ok (ms, ad) := by
  rcases hx : x3dhReceiver idk spk opk hdr with e | ⟨ms, ad⟩
  · exfalso
    unfold x3dhReceiver at hx
    cases opk with
    | none =>
      simp only [dh_eq, Bind.bind, Except.bind, pure, Except.pure] at hx
      rw [hkdf_ok _ _ _ 32 (by norm_num)] at hx
      simp [Except.bind] at hx
    | some o =>
      simp only [dh_eq, Bind.bind, Except.bind, pure, Except.pure] at hx
      rw [hkdf_ok _ _ _ 32 (by norm_num)] at hx
      simp [Except.bind] at hx
  · exact ⟨ms, ad, rfl⟩

/-! ## Failing decrypt paths -/

/-- The inner `_decrypt` on a ciphertext of fewer than 28 bytes fails
at frame deserialization. -/
theorem ratchetDecryptInner_short (mk cb : Bytes) (hdr : MessageHeader)
    (aad : Bytes) (h : cb.length < 28) :
    ratchetDecryptInner mk cb hdr aad = .error .payloadTooShort := by
  unfold ratchetDecryptInner deserializeEncrypted
  simp only [deriveMessageKeys_eq, Bind.bind, Except.bind]
  rw [if_pos h]

/-- `ratchetDecrypt` on a fresh receiver state with an in-ceiling header
and a too-short ciphertext fails with the payload error (and, being
pure, yields no post-state). -/
theorem ratchetDecrypt_short (bob : RatchetState) (dhsB : KeyPair) (rk : Bytes)
    (hskip : bob.MKSKIPPED = []) (hdhr : bob.DHr = none) (hdhs : bob.DHs = some dhsB)
    (hrk : bob.RK = some rk) (hnr : bob.Nr = 0) (header : MessageHeader)
    (hpn : header.pn = 0) (hn : header.n ≤ MAX_SKIP) (ct : String) (aad seed : Bytes)
    (hct : (base64ToBytes ct).length < 28) :
    ratchetDecrypt bob header ct aad seed = .error .payloadTooShort := by
  obtain ⟨m, hm⟩ := ratchetDecrypt_first_eq bob dhsB rk hskip hdhr hdhs hrk hnr
    header hpn hn ct aad seed
  rw [hm, ratchetDecryptInner_short _ _ _ _ hct]

/-- `ratchetDecrypt` on a fresh receiver state whose header asks to skip
past the ceiling fails with the skip error before any decryption. -/
theorem ratchetDecrypt_gap (bob : RatchetState) (dhsB : KeyPair)
    (hskip : bob.MKSKIPPED = []) (hdhr : bob.DHr = none) (hdhs : bob.DHs = some dhsB)
    (hnr : bob.Nr = 0) (header : MessageHeader)
    (hpn : header.pn = 0) (hn : MAX_SKIP < header.n) (ct : String) (aad seed : Bytes) :
    ratchetDecrypt bob header ct aad seed = .error .tooManySkipped := by
  have htry : trySkippedMessageKey bob header = none := by
    simp [trySkippedMessageKey, mapGet, hskip]
  have hratchet := dhRatchetStep_eq bob dhsB hdhs header seed
  have hngt0 : ¬((0 : Nat) - 0 > MAX_SKIP) := by omega
  unfold ratchetDecrypt
  rw [htry]
  simp [hdhr, hpn, hnr, hratchet, Bind.bind, Except.bind, skipMessageKeys,
    skipMessageKeysLoop, hngt0, hn]

/-! ## Skipped-cache size bounds -/

/-- `Map.set` grows a map by at most one entry. -/
theorem mapSet_length_le {α : Type} (m : List (String × α)) (k : String) (v : α) :
    (mapSet m k v).length ≤ m.length + 1 := by
  unfold mapSet
  split
  · simp
  · simp

/-- The evict-first-when-over-bound step of the cache insert keeps a map
of at most `MAX_CACHED_KEYS + 1` entries within the bound. -/
theorem evict_le {α : Type} (m : List (String × α))
    (h : m.length ≤ MAX_CACHED_KEYS + 1) :
    (if m.length > MAX_CACHED_KEYS then
       match mapFirstKey m with
       | some firstKey => mapDelete m firstKey
       | none => m
     else m).length ≤ MAX_CACHED_KEYS := by
  split
  · case isTrue hgt =>
    match m with
    | [] => simp at hgt
    | f :: t =>
      simp only [mapFirstKey, List.head?, Option.map]
      unfold mapDelete
      rw [List.filter_cons_of_neg (by simp)]
      refine le_trans (List.length_filter_le _ t) ?_
      simp only [List.length_cons] at h hgt
      omega
  · case isFalse hgt => omega

/-- One cache insertion step keeps the skipped-key cache within the
bound. -/
theorem skipInsertMap_le (s : RatchetState) (mk : Bytes)
    (h : s.MKSKIPPED.length ≤ MAX_CACHED_KEYS) :
    (skipInsertMap s mk).length ≤ MAX_CACHED_KEYS := by
  have hins := mapSet_length_le s.MKSKIPPED
    (bytesToBase64 (s.DHr.getD []) ++ "_" ++ toString s.Nr) mk
  exact evict_le _ (by omega)

/-- The skip loop keeps the cache within the bound. -/
theorem skipMessageKeysLoop_cache_le (fuel : Nat) (s : RatchetState) (untilN : Nat)
    (h : s.MKSKIPPED.length ≤ MAX_CACHED_KEYS) :
    (skipMessageKeysLoop s untilN fuel).MKSKIPPED.length ≤ MAX_CACHED_KEYS := by
  induction fuel generalizing s with
  | zero => simpa [skipMessageKeysLoop] using h
  | succ fuel ih =>
    rw [skipMessageKeysLoop]
    split
    · case isTrue hlt =>
      cases hck : s.CKr with
      | none => simpa using h
      | some ckr =>
        exact ih _ (by simpa using skipInsertMap_le s (kdfCK ckr).1 h)
    · case isFalse hlt => simpa using h

/-- A successful `skipMessageKeys` keeps the cache within the bound. -/
theorem skipMessageKeys_cache_le (s s' : RatchetState) (untilN : Nat)
    (h : skipMessageKeys s untilN = .ok s')
    (hb : s.MKSKIPPED.length ≤ MAX_CACHED_KEYS) :
    s'.MKSKIPPED.length ≤ MAX_CACHED_KEYS := by
  unfold skipMessageKeys at h
  split at h
  · simp at h
  · simp only [Except.ok.injEq] at h
    subst h
    exact skipMessageKeysLoop_cache_le _ _ _ hb

/-- A DH ratchet step never touches the skipped-key cache. -/
theorem dhRatchetStep_cache (s : RatchetState) (hd : MessageHeader) (seed : Bytes)
    (s' : RatchetState) (h : dhRatchetStep s hd seed = .ok s') :
    s'.MKSKIPPED = s.MKSKIPPED := by
  cases hdhs : s.DHs with
  | none =>
    unfold dhRatchetStep at h
    rw [hdhs] at h
    simp at h
  | some dhs =>
    rw [dhRatchetStep_eq s dhs hdhs hd seed] at h
    simp only [Except.ok.injEq] at h
    subst h
    rfl

/-- A successful `ratchetEncrypt` never touches the skipped-key cache. -/
theorem ratchetEncrypt_cache (s : RatchetState) (pt aad nonce : Bytes)
    (s' : RatchetState) (hd : MessageHeader) (ct : String)
    (h : ratchetEncrypt s pt aad nonce = .ok (s', hd, ct)) :
    s'.MKSKIPPED = s.MKSKIPPED := by
  cases hck : s.CKs with
  | none =>
    unfold ratchetEncrypt at h
    rw [hck] at h
    simp at h
  | some cks =>
    cases hdh : s.DHs with
    | none =>
      unfold ratchetEncrypt at h
      rw [hck, hdh] at h
      simp at h
    | some dhs =>
      rw [ratchetEncrypt_eq s cks dhs hck hdh pt aad nonce] at h
      simp only [Except.ok.injEq, Prod.mk.injEq] at h
      obtain ⟨h1, -, -⟩ := h
      subst h1
      rfl

set_option maxHeartbeats 1000000 in
/-- A successful `ratchetDecrypt` keeps the skipped-key cache within the
bound. -/
theorem ratchetDecrypt_cache (s : RatchetState) (hd : MessageHeader) (ct : String)
    (aad seed : Bytes) (s' : RatchetState) (pt : Bytes)
    (h : ratchetDecrypt s hd ct aad seed = .ok (s', pt))
    (hb : s.MKSKIPPED.length ≤ MAX_CACHED_KEYS) :
    s'.MKSKIPPED.length ≤ MAX_CACHED_KEYS := by
  unfold ratchetDecrypt at h
  cases htry : trySkippedMessageKey s hd with
  | some p =>
    rw [htry] at h
    obtain ⟨mk, popped⟩ := p
    simp only [Bind.bind, Except.bind] at h
    rcases hinner : ratchetDecryptInner mk (base64ToBytes ct) hd aad with e | pt2
    · simp [hinner] at h
    · simp only [hinner, pure, Except.pure, Except.ok.injEq, Prod.mk.injEq] at h
      obtain ⟨h1, -⟩ := h
      subst h1
      simp only [trySkippedMessageKey] at htry
      split at htry
      · simp only [Option.some.injEq, Prod.mk.injEq] at htry
        obtain ⟨-, h2⟩ := htry
        rw [← h2]
        refine le_trans ?_ hb
        exact List.length_filter_le _ _
      · simp at htry
  | none =>
    rw [htry] at h
    simp only [Bind.bind, Except.bind] at h
    by_cases hcond : some (bytesToBase64 hd.dh) ≠ s.DHr.map bytesToBase64
    · rw [if_pos hcond] at h
      rcases hs1 : skipMessageKeys s hd.pn with e | sMid
      · simp [hs1] at h
      · simp only [hs1] at h
        rcases hdr : dhRatchetStep sMid hd seed with e | s1
        · simp [hdr] at h
        · simp only [hdr] at h
          have hbMid := skipMessageKeys_cache_le s sMid hd.pn hs1 hb
          have hb1 : s1.MKSKIPPED.length ≤ MAX_CACHED_KEYS := by
            rw [dhRatchetStep_cache sMid hd seed s1 hdr]
            exact hbMid
          rcases hs2 : skipMessageKeys s1 hd.n with e | state2
          · simp [hs2] at h
          · simp only [hs2] at h
            have hb2 := skipMessageKeys_cache_le s1 state2 hd.n hs2 hb1
            rcases hck : state2.CKr with _ | ckr
            · simp [hck] at h
            · simp only [hck] at h
              rcases hinner : ratchetDecryptInner (kdfCK ckr).1 (base64ToBytes ct) hd aad
                with e | pt2
              · simp [hinner] at h
              · simp only [hinner, pure, Except.pure, Except.ok.injEq,
                  Prod.mk.injEq] at h
                obtain ⟨h1, -⟩ := h
                rw [← h1]
                exact hb2
    · rw [if_neg hcond] at h
      rcases hs2 : skipMessageKeys s hd.n with e | state2
      · simp [hs2] at h
      · simp only [hs2] at h
        have hb2 := skipMessageKeys_cache_le s state2 hd.n hs2 hb
        rcases hck : state2.CKr with _ | ckr
        · simp [hck] at h
        · simp only [hck] at h
          rcases hinner : ratchetDecryptInner (kdfCK ckr).1 (base64ToBytes ct) hd aad
            with e | pt2
          · simp [hinner] at h
          · simp only [hinner, pure, Except.pure, Except.ok.injEq, Prod.mk.injEq] at h
            obtain ⟨h1, -⟩ := h
            rw [← h1]
            exact hb2

/-- A state produced by `initializeSender` has an empty cache. -/
theorem initializeSender_cache (ms bpk seed : Bytes) (s : RatchetState)
    (h : initializeSender ms bpk seed = .ok s) : s.MKSKIPPED = [] := by
  rw [initializeSender_eq] at h
  simp only [Except.ok.injEq] at h
  rw [← h]

/-! ## Skip-ceiling characterisation -/

/-- `skipMessageKeys` throws exactly when the requested advance exceeds
`MAX_SKIP`; the error is always the skip error. -/
theorem skipMessageKeys_error_iff (s : RatchetState) (untilN : Nat) :
    (skipMessageKeys s untilN = .error .tooManySkipped ↔ MAX_SKIP < untilN - s.Nr) := by
  unfold skipMessageKeys
  split
  · case isTrue hgt => exact ⟨fun _ => hgt, fun _ => rfl⟩
  · case isFalse hgt =>
    exact ⟨fun hh => by simp at hh, fun hh => absurd hh hgt⟩

/-! ## Serialization round-trip helpers -/

/-- `n || 0` is the identity on naturals. -/
theorem jsOrZero_eq (n : Nat) : jsOrZero n = n := by
  unfold jsOrZero
  split <;> omega

/-- `btoa` of a nonempty byte string is nonempty. -/
theorem bytesToBase64_ne_empty (l : Bytes) (h : l ≠ []) : bytesToBase64 l ≠ "" := by
  match l with
  | [] => exact absurd rfl h
  | [a] =>
    simp [bytesToBase64, b64Encode]
    intro hfalse
    have hd := congrArg String.data hfalse
    simp at hd
  | [a, b] =>
    simp [bytesToBase64, b64Encode]
    intro hfalse
    have hd := congrArg String.data hfalse
    simp at hd
  | a :: b :: c :: rest =>
    simp [bytesToBase64, b64Encode]
    intro hfalse
    have hd := congrArg String.data hfalse
    simp at hd

/-- Decoding an encoded optional byte field is the identity on
well-formed values. -/
theorem jsDecodeOpt_map (o : Option Bytes) (h : wfOptBytes o = true) :
    jsDecodeOpt (o.map bytesToBase64) = o := by
  cases o with
  | none => rfl
  | some l =>
    simp only [wfOptBytes, Bool.and_eq_true, Bool.not_eq_true', List.all_eq_true,
      decide_eq_true_eq] at h
    have hne : l ≠ [] := by
      intro hnil
      rw [hnil] at h
      simp at h
    unfold jsDecodeOpt jsTruthyStr
    simp only [Option.map_some']
    rw [if_pos (by simpa using bytesToBase64_ne_empty l hne)]
    rw [base64ToBytes_bytesToBase64 l h.2]

/-- Property enumeration is the identity on objects without array-index
keys. -/
theorem jsObjectEntries_eq_self {α : Type} (l : List (String × α))
    (h : ∀ e ∈ l, isArrayIndexKey e.1 = false) :
    jsObjectEntries l = l := by
  unfold jsObjectEntries
  have h1 : l.filter (fun e => isArrayIndexKey e.1) = [] := by
    rw [List.filter_eq_nil_iff]
    intro e he
    simp [h e he]
  have h2 : l.filter (fun e => !isArrayIndexKey e.1) = l := by
    rw [List.filter_eq_self]
    intro e he
    simp [h e he]
  rw [h1, h2]
  rfl

/-- Per-entry base64 round-trip over a skipped-key cache. -/
theorem cacheEntries_roundtrip (l : List (String × Bytes))
    (h : ∀ e ∈ l, ∀ b ∈ e.2, b < 256) :
    (l.map (fun e => (e.1, bytesToBase64 e.2))).map
      (fun e => (e.1, base64ToBytes e.2)) = l := by
  induction l with
  | nil => rfl
  | cons e t ih =>
    simp only [List.map_cons, List.cons.injEq]
    constructor
    · rw [base64ToBytes_bytesToBase64 e.2 (h e (by simp))]
    · exact ih (fun e' he' => h e' (by simp [he']))

/-! # Claim theorems -/

/-- Claim C3 (code_bug): the associated data is NOT authenticated.
`encryptAES256GCM`/`decryptAES256GCM` accept an `aad` argument and never
use it (`nacl.secretbox` takes no associated data), so sealing and
opening are invariant in the aad, the inner `_decrypt` is invariant in
both the header and the caller aad it folds into the combined AAD, and a
concrete payload sealed under one aad opens under a different one. -/
theorem aad_not_authenticated :
    (∀ pt key aad1 aad2 nonce : Bytes, encryptAES256GCM pt key aad1 nonce
        = encryptAES256GCM pt key aad2 nonce) ∧
    (∀ ct nonce tag key aad1 aad2 : Bytes, decryptAES256GCM ct nonce tag key aad1
        = decryptAES256GCM ct nonce tag key aad2) ∧
    (∀ (mk cb : Bytes) (hdr1 hdr2 : MessageHeader) (aad1 aad2 : Bytes),
        ratchetDecryptInner mk cb hdr1 aad1 = ratchetDecryptInner mk cb hdr2 aad2) ∧
    (∃ p, encryptAES256GCM [1] (List.replicate 32 0) [2] (List.replicate 12 0) = .ok p ∧
      decryptAES256GCM p.ciphertext p.nonce p.tag (List.replicate 32 0) [99] = .ok [1]) := by
  refine ⟨fun _ _ _ _ _ => rfl, fun _ _ _ _ _ _ => rfl, fun _ _ _ _ _ _ => rfl, ?_⟩
  refine ⟨⟨(secretbox [1] (List.replicate 24 0) (List.replicate 32 0)).drop 16,
    List.replicate 12 0,
    (secretbox [1] (List.replicate 24 0) (List.replicate 32 0)).take 16⟩, ?_, ?_⟩
  · decide
  · decide

/-- Claim C7 (code_bug): low-order points are NOT rejected.  `dh` always
succeeds — the `if (!result)` guard is dead, since `nacl.scalarMult`
returns a `Uint8Array`, which is always truthy — so it never throws
`InvalidKey`; in particular it maps the all-zero point to the all-zero
shared secret, and `x3dhReceiver` happily derives a master secret from a
header carrying all-zero (low-order image) identity and ephemeral
points. -/
theorem low_order_accepted :
    (∀ priv pub : Bytes, dh priv pub = .ok (scalarMult priv pub)) ∧
    (∀ (priv pub : Bytes) (e : JsErr), dh priv pub ≠ .error e) ∧
    dh [1] (List.replicate 32 0) = .ok (List.replicate 32 0) ∧
    (∃ ms ad, x3dhReceiver ⟨[9], [1]⟩ ⟨[9], [1]⟩ (some ⟨[9], [1]⟩)
        ⟨List.replicate 32 0, List.replicate 32 0, 1, none⟩ = .ok (ms, ad)) := by
  refine ⟨fun priv pub => dh_eq priv pub, ?_, by decide, x3dhReceiver_ok _ _ _ _⟩
  intro priv pub e
  rw [dh_eq]
  simp

set_option maxRecDepth 4000 in
/-- Claim C8 (code_bug): the safety number is NOT symmetric and is not a
60-digit fingerprint.  `_computeSafetyNumber` hashes the base64 of the
UNSORTED concatenation `localIK || remoteIK` with a 32-bit string hash
and emits ten decimal digits in two groups of five; swapping the two
identity keys changes the result. -/
theorem safety_number_asymmetric :
    computeSafetyNumber (List.replicate 32 1) (List.replicate 32 2) = "09721 59601" ∧
    computeSafetyNumber (List.replicate 32 2) (List.replicate 32 1) = "14465 40406" ∧
    computeSafetyNumber (List.replicate 32 1) (List.replicate 32 2)
      ≠ computeSafetyNumber (List.replicate 32 2) (List.replicate 32 1) ∧
    (computeSafetyNumber (List.replicate 32 1) (List.replicate 32 2)).length ≠ 60 := by
  have hmap1 : (bytesToBase64 (List.replicate 32 2 ++ List.replicate 32 1)).data.map
      Char.toNat = [65, 103, 73, 67, 65, 103, 73, 67, 65, 103, 73, 67, 65, 103, 73,
        67, 65, 103, 73, 67, 65, 103, 73, 67, 65, 103, 73, 67, 65, 103, 73, 67, 65,
        103, 73, 67, 65, 103, 73, 67, 65, 103, 73, 66, 65, 81, 69, 66, 65, 81, 69,
        66, 65, 81, 69, 66, 65, 81, 69, 66, 65, 81, 69, 66, 65, 81, 69, 66, 65, 81,
        69, 66, 65, 81, 69, 66, 65, 81, 69, 66, 65, 81, 69, 66, 65, 81, 61, 61] := by
    decide
  have hmap2 : (bytesToBase64 (List.replicate 32 1 ++ List.replicate 32 2)).data.map
      Char.toNat = [65, 81, 69, 66, 65, 81, 69, 66, 65, 81, 69, 66, 65, 81, 69, 66,
        65, 81, 69, 66, 65, 81, 69, 66, 65, 81, 69, 66, 65, 81, 69, 66, 65, 81, 69,
        66, 65, 81, 69, 66, 65, 81, 69, 67, 65, 103, 73, 67, 65, 103, 73, 67, 65,
        103, 73, 67, 65, 103, 73, 67, 65, 103, 73, 67, 65, 103, 73, 67, 65, 103, 73,
        67, 65, 103, 73, 67, 65, 103, 73, 67, 65, 103, 73, 67, 65, 103, 61, 61] := by
    decide
  have hhash1 : (bytesToBase64 (List.replicate 32 2 ++ List.replicate 32 1)).data.foldl
      (fun h ch => safetyHashStep h ch.toNat) 0 = 972159601 := by
    rw [← List.foldl_map Char.toNat (fun h c => safetyHashStep h c)
      (bytesToBase64 (List.replicate 32 2 ++ List.replicate 32 1)).data 0]
    rw [hmap1]
    have hsa0 : List.foldl (fun h c => safetyHashStep h c) (0 : Int)
        [65, 103, 73, 67, 65, 103, 73, 67, 65, 103, 73] = (-1318278909 : Int) := by decide
    have hsa1 : List.foldl (fun h c => safetyHashStep h c) (-1318278909 : Int)
        [67, 65, 103, 73, 67, 65, 103, 73, 67, 65, 103] = (1653458854 : Int) := by decide
    have hsa2 : List.foldl (fun h c => safetyHashStep h c) (1653458854 : Int)
        [73, 67, 65, 103, 73, 67, 65, 103, 73, 67, 65] = (-382115519 : Int) := by decide
    have hsa3 : List.foldl (fun h c => safetyHashStep h c) (-382115519 : Int)
        [103, 73, 67, 65, 103, 73, 67, 65, 103, 73, 66] = (351827615 : Int) := by decide
    have hsa4 : List.foldl (fun h c => safetyHashStep h c) (351827615 : Int)
        [65, 81, 69, 66, 65, 81, 69, 66, 65, 81, 69] = (503190716 : Int) := by decide
    have hsa5 : List.foldl (fun h c => safetyHashStep h c) (503190716 : Int)
        [66, 65, 81, 69, 66, 65, 81, 69, 66, 65, 81] = (-931989424 : Int) := by decide
    have hsa6 : List.foldl (fun h c => safetyHashStep h c) (-931989424 : Int)
        [69, 66, 65, 81, 69, 66, 65, 81, 69, 66, 65] = (-1298131430 : Int) := by decide
    have hsa7 : List.foldl (fun h c => safetyHashStep h c) (-1298131430 : Int)
        [81, 69, 66, 65, 81, 69, 66, 65, 81, 61, 61] = (972159601 : Int) := by decide
    show List.foldl (fun h c => safetyHashStep h c) (0 : Int)
      ([65, 103, 73, 67, 65, 103, 73, 67, 65, 103, 73] ++
       ([67, 65, 103, 73, 67, 65, 103, 73, 67, 65, 103] ++
       ([73, 67, 65, 103, 73, 67, 65, 103, 73, 67, 65] ++
       ([103, 73, 67, 65, 103, 73, 67, 65, 103, 73, 66] ++
       ([65, 81, 69, 66, 65, 81, 69, 66, 65, 81, 69] ++
       ([66, 65, 81, 69, 66, 65, 81, 69, 66, 65, 81] ++
       ([69, 66, 65, 81, 69, 66, 65, 81, 69, 66, 65] ++
       [81, 69, 66, 65, 81, 69, 66, 65, 81, 61, 61]))))))) = (972159601 : Int)
    rw [List.foldl_append, hsa0]
    rw [List.foldl_append, hsa1]
    rw [List.foldl_append, hsa2]
    rw [List.foldl_append, hsa3]
    rw [List.foldl_append, hsa4]
    rw [List.foldl_append, hsa5]
    rw [List.foldl_append, hsa6]
    exact hsa7
  have hhash2 : (bytesToBase64 (List.replicate 32 1 ++ List.replicate 32 2)).data.foldl
      (fun h ch => safetyHashStep h ch.toNat) 0 = 1446540406 := by
    rw [← List.foldl_map Char.toNat (fun h c => safetyHashStep h c)
      (bytesToBase64 (List.replicate 32 1 ++ List.replicate 32 2)).data 0]
    rw [hmap2]
    have hsb0 : List.foldl (fun h c => safetyHashStep h c) (0 : Int)
        [65, 81, 69, 66, 65, 81, 69, 66, 65, 81, 69] = (-731474757 : Int) := by decide
    have hsb1 : List.foldl (fun h c => safetyHashStep h c) (-731474757 : Int)
        [66, 65, 81, 69, 66, 65, 81, 69, 66, 65, 81] = (1275646705 : Int) := by decide
    have hsb2 : List.foldl (fun h c => safetyHashStep h c) (1275646705 : Int)
        [69, 66, 65, 81, 69, 66, 65, 81, 69, 66, 65] = (-1384710951 : Int) := by decide
    have hsb3 : List.foldl (fun h c => safetyHashStep h c) (-1384710951 : Int)
        [81, 69, 66, 65, 81, 69, 66, 65, 81, 69, 67] = (-1787185328 : Int) := by decide
    have hsb4 : List.foldl (fun h c => safetyHashStep h c) (-1787185328 : Int)
        [65, 103, 73, 67, 65, 103, 73, 67, 65, 103, 73] = (-1962000461 : Int) := by decide
    have hsb5 : List.foldl (fun h c => safetyHashStep h c) (-1962000461 : Int)
        [67, 65, 103, 73, 67, 65, 103, 73, 67, 65, 103] = (1263805174 : Int) := by decide
    have hsb6 : List.foldl (fun h c => safetyHashStep h c) (1263805174 : Int)
        [73, 67, 65, 103, 73, 67, 65, 103, 73, 67, 65] = (1979700209 : Int) := by decide
    have hsb7 : List.foldl (fun h c => safetyHashStep h c) (1979700209 : Int)
        [103, 73, 67, 65, 103, 73, 67, 65, 103, 61, 61] = (1446540406 : Int) := by decide
    show List.foldl (fun h c => safetyHashStep h c) (0 : Int)
      ([65, 81, 69, 66, 65, 81, 69, 66, 65, 81, 69] ++
       ([66, 65, 81, 69, 66, 65, 81, 69, 66, 65, 81] ++
       ([69, 66, 65, 81, 69, 66, 65, 81, 69, 66, 65] ++
       ([81, 69, 66, 65, 81, 69, 66, 65, 81, 69, 67] ++
       ([65, 103, 73, 67, 65, 103, 73, 67, 65, 103, 73] ++
       ([67, 65, 103, 73, 67, 65, 103, 73, 67, 65, 103] ++
       ([73, 67, 65, 103, 73, 67, 65, 103, 73, 67, 65] ++
       [103, 73, 67, 65, 103, 73, 67, 65, 103, 61, 61]))))))) = (1446540406 : Int)
    rw [List.foldl_append, hsb0]
    rw [List.foldl_append, hsb1]
    rw [List.foldl_append, hsb2]
    rw [List.foldl_append, hsb3]
    rw [List.foldl_append, hsb4]
    rw [List.foldl_append, hsb5]
    rw [List.foldl_append, hsb6]
    exact hsb7
  have h1 : computeSafetyNumber (List.replicate 32 1) (List.replicate 32 2)
      = "09721 59601" := by
    simp only [computeSafetyNumber]
    rw [hhash1]
    decide
  have h2 : computeSafetyNumber (List.replicate 32 2) (List.replicate 32 1)
      = "14465 40406" := by
    simp only [computeSafetyNumber]
    rw [hhash2]
    decide
  refine ⟨h1, h2, by rw [h1, h2]; decide, by rw [h1]; decide⟩

/-- The key ids assigned by one run of the OPK generation loop are
`now + i, now + i + 1, ...`: the clock reading plus the loop index. -/
theorem genOpkLoop_ids (storage : List (String × StoreVal)) (now : Nat)
    (seed : Nat → Bytes) (i count : Nat) :
    (genOpkLoop storage now seed i count).1.map Prod.fst
      = (List.range count).map (fun j => now + (i + j)) := by
  induction count generalizing storage i with
  | zero => rfl
  | succ c ih =>
    rw [genOpkLoop]
    rw [pairEta (genOpkLoop (mapSet storage ("signal_opk_" ++ toString (now + i))
        (.prekey { keyId := now + i,
                   publicKey := bytesToBase64 (generateKeyPair (seed i)).publicKey,
                   privateKey := bytesToBase64 (generateKeyPair (seed i)).privateKey,
                   signature := none, createdAt := now })) now seed (i + 1) c)]
    rw [pairEta ((genOpkLoop (mapSet storage ("signal_opk_" ++ toString (now + i))
        (.prekey { keyId := now + i,
                   publicKey := bytesToBase64 (generateKeyPair (seed i)).publicKey,
                   privateKey := bytesToBase64 (generateKeyPair (seed i)).privateKey,
                   signature := none, createdAt := now })) now seed (i + 1) c).2)]
    simp only [List.map_cons]
    rw [ih]
    rw [List.range_succ_eq_map]
    simp only [List.map_cons, List.map_map, Nat.add_zero, Function.comp]
    congr 1
    exact List.map_congr_left fun j hj => by
      simp only [Function.comp_apply]
      omega

/-- Claim C9 (corrected): pre-key ids are NOT drawn from a persistent
counter.  `generateOneTimePreKeys(count)` at clock reading `now` assigns
the ids `now, now + 1, ..., now + count - 1` (`Date.now() + i`), and
`generateSignedPreKey` assigns `Date.now()` itself: ids are dense and
ascending within one batch, but their base is the wall clock, so nothing
prevents a later call from re-assigning an id of an earlier call (see
the counterexample), and at realistic clock readings the ids exceed
32 bits. -/
theorem prekey_ids_timestamped (w : World) (count now : Nat) (seed : Nat → Bytes) :
    (generateOneTimePreKeys w count now seed).1.map Prod.fst
        = (List.range count).map (fun j => now + j) ∧
    generateSignedPreKeyId now = now := by
  refine ⟨?_, rfl⟩
  unfold generateOneTimePreKeys
  rw [pairEta (genOpkLoop w.storage now seed 0 count),
    pairEta (genOpkLoop w.storage now seed 0 count).2]
  have hids := genOpkLoop_ids w.storage now seed 0 count
  simpa using hids

/-- Claim C9 counterexample: two generation calls one millisecond apart
re-assign id 1001 — the first batch at clock 1000 assigns ids 1000 and
1001, the second batch at clock 1001 assigns 1001 again, and the
persisted id list ends up holding 1001 twice; moreover at a realistic
clock reading the assigned id (= the timestamp) exceeds `2^32 - 1`, so
ids are neither unique nor 32-bit. -/
theorem prekey_id_reuse_refuted :
    opkBatch1.1.map Prod.fst = [1000, 1001] ∧
    opkBatch2.1.map Prod.fst = [1001] ∧
    storageGet opkBatch2.2 "signal_opk_ids" = some (.ids [1000, 1001, 1001]) ∧
    (generateOneTimePreKeys emptyWorld 1 1700000000000 (fun _ => [1])).1.map Prod.fst
      = [1700000000000] ∧
    4294967295 < 1700000000000 := by
  refine ⟨by decide, by decide, by decide, by decide, by decide⟩

set_option maxRecDepth 4000 in
/-- Claim C10 (corrected): serialization round-trips ONLY on states
whose present byte fields are nonempty and whose skipped-cache keys are
not ECMAScript array-index strings (the enumeration order of
`Object.entries` would hoist and numerically sort such keys, and an
empty byte field serializes to `""`, which deserializes to `null`). -/
theorem serialize_roundtrip_wf (s : RatchetState) (h : wfRatchetState s = true) :
    deserializeRatchetState (serializeRatchetState s) = s := by
  obtain ⟨DHs, DHr, RK, CKs, CKr, Ns, Nr, PN, MK⟩ := s
  cases DHs with
  | none =>
    simp only [wfRatchetState, Bool.and_eq_true, List.all_eq_true] at h
    obtain ⟨⟨⟨⟨⟨-, hDHr⟩, hRK⟩, hCKs⟩, hCKr⟩, hMK⟩ := h
    unfold serializeRatchetState deserializeRatchetState
    simp only [RatchetState.mk.injEq]
    refine ⟨by simp [jsTruthyStr], jsDecodeOpt_map DHr hDHr, jsDecodeOpt_map RK hRK,
      jsDecodeOpt_map CKs hCKs, jsDecodeOpt_map CKr hCKr,
      jsOrZero_eq Ns, jsOrZero_eq Nr, jsOrZero_eq PN, ?_⟩
    rw [jsObjectEntries_eq_self]
    · exact cacheEntries_roundtrip MK (fun e he => by
        have hmk := hMK e he
        simp only [Bool.and_eq_true, List.all_eq_true, decide_eq_true_eq] at hmk
        exact fun b hb => hmk.2 b hb)
    · intro e he
      obtain ⟨e0, he0, rfl⟩ := List.mem_map.mp he
      have hmk := hMK e0 he0
      simp only [Bool.and_eq_true, Bool.not_eq_true'] at hmk
      exact hmk.1
  | some kp =>
    simp only [wfRatchetState, Bool.and_eq_true, List.all_eq_true] at h
    obtain ⟨⟨⟨⟨⟨hkp, hDHr⟩, hRK⟩, hCKs⟩, hCKr⟩, hMK⟩ := h
    simp only [Bool.and_eq_true, Bool.not_eq_true', List.all_eq_true,
      decide_eq_true_eq] at hkp
    obtain ⟨⟨hpub0, hpub⟩, hpriv0, hpriv⟩ := hkp
    have hpubne : kp.publicKey ≠ [] := by
      intro hnil
      rw [hnil] at hpub0
      simp at hpub0
    have hprivne : kp.privateKey ≠ [] := by
      intro hnil
      rw [hnil] at hpriv0
      simp at hpriv0
    unfold serializeRatchetState deserializeRatchetState
    simp only [RatchetState.mk.injEq]
    refine ⟨?_, jsDecodeOpt_map DHr hDHr, jsDecodeOpt_map RK hRK,
      jsDecodeOpt_map CKs hCKs, jsDecodeOpt_map CKr hCKr,
      jsOrZero_eq Ns, jsOrZero_eq Nr, jsOrZero_eq PN, ?_⟩
    · simp only [Option.map_some', Option.getD_some, jsTruthyStr]
      rw [if_pos (by
        simp only [Bool.and_eq_true, decide_eq_true_eq]
        exact ⟨bytesToBase64_ne_empty _ hpubne, bytesToBase64_ne_empty _ hprivne⟩)]
      rw [base64ToBytes_bytesToBase64 _ hpub, base64ToBytes_bytesToBase64 _ hpriv]
    · rw [jsObjectEntries_eq_self]
      · exact cacheEntries_roundtrip MK (fun e he => by
          have hmk := hMK e he
          simp only [Bool.and_eq_true, List.all_eq_true, decide_eq_true_eq] at hmk
          exact fun b hb => hmk.2 b hb)
      · intro e he
        obtain ⟨e0, he0, rfl⟩ := List.mem_map.mp he
        have hmk := hMK e0 he0
        simp only [Bool.and_eq_true, Bool.not_eq_true'] at hmk
        exact hmk.1

/-- Claim C10 witness: a well-formed sample state round-trips. -/
theorem serialize_roundtrip_wf_witness :
    deserializeRatchetState (serializeRatchetState wfSampleState) = wfSampleState :=
  serialize_roundtrip_wf wfSampleState (by decide)

set_option maxRecDepth 4000 in
/-- Claim C10 counterexample: a state whose skipped cache was filled
under the keys `"1"` then `"0"` — numeric strings, as may arise — does
NOT round-trip: `Object.entries` re-enumerates array-index keys in
ascending numeric order, so the cache comes back as `"0","1"` and the
insertion order (the basis of FIFO eviction) is lost. -/
theorem serialize_roundtrip_refuted :
    deserializeRatchetState (serializeRatchetState badCacheState) ≠ badCacheState := by
  decide

/-- Claim C5 (corrected): the skip guard is strict.  `skipMessageKeys`
fails with the skip error exactly when the requested advance EXCEEDS
`MAX_SKIP` (i.e. `until - Nr > 1000`), and a fresh receiver handed a
header with `n > MAX_SKIP` rejects it with that error; but an advance of
exactly `MAX_SKIP` is allowed, so the spec's 1001-message scenario —
where the last header carries `n = 1000` — in fact decrypts (see the
counterexample). -/
theorem skip_ceiling_amended (s : RatchetState) (untilN : Nat)
    (master sSeed dhp : Bytes) (ct : String) (aad seed : Bytes) (n : Nat)
    (hn : MAX_SKIP < n) :
    (skipMessageKeys s untilN = .error .tooManySkipped ↔ MAX_SKIP < untilN - s.Nr) ∧
    ratchetDecrypt (initializeReceiver master (generateKeyPair sSeed))
      ⟨dhp, 0, n⟩ ct aad seed = .error .tooManySkipped := by
  refine ⟨skipMessageKeys_error_iff s untilN, ?_⟩
  exact ratchetDecrypt_gap (initializeReceiver master (generateKeyPair sSeed))
    (generateKeyPair sSeed) rfl rfl rfl rfl ⟨dhp, 0, n⟩ rfl hn ct aad seed

/-- Claim C5 witness: at `n = 1001` the fresh receiver's decrypt fails
with the skip error, and the guard instance at `until = 0` is
faithfully characterised. -/
theorem skip_ceiling_amended_witness :
    (skipMessageKeys defaultRatchetState 0 = .error .tooManySkipped
        ↔ MAX_SKIP < 0 - defaultRatchetState.Nr) ∧
    ratchetDecrypt (initializeReceiver [1] (generateKeyPair [2]))
      ⟨[9], 0, 1001⟩ "" [] [5] = .error .tooManySkipped :=
  skip_ceiling_amended defaultRatchetState 0 [1] [2] [9] "" [] [5] 1001 (by decide)

/-- Claim C5 counterexample: the spec's own scenario succeeds.  The
canonical sender's 1001st message (header index `n = MAX_SKIP = 1000`),
handed alone to the fresh receiver, decrypts fine — the advance equals
`MAX_SKIP` and the strict guard `until - Nr > MAX_SKIP` does not trip. -/
theorem skip_ceiling_refuted :
    ∃ sPost ct, encryptNth (senderInit [1] [2] [3]) [7] []
        (fun _ => List.replicate 12 0) MAX_SKIP
        = .ok (sPost, ⟨(generateKeyPair [3]).publicKey, 0, MAX_SKIP⟩, ct) ∧
      ∃ rPost, ratchetDecrypt (initializeReceiver [1] (generateKeyPair [2]))
        ⟨(generateKeyPair [3]).publicKey, 0, MAX_SKIP⟩ ct [] [5] = .ok (rPost, [7]) := by
  obtain ⟨m, hdec⟩ := pairDecrypt_ok [1] [7] [] [2] [3] [5] (List.replicate 12 0) MAX_SKIP
    (le_refl MAX_SKIP) (by decide) (by decide) (by decide)
  exact ⟨_, _, pairEncrypt_eq [1] [7] [] [2] [3] (fun _ => List.replicate 12 0) MAX_SKIP,
    _, hdec⟩

/-- Claim C6 (confirmed): the skipped-message-key cache of every
reachable ratchet state holds at most `MAX_CACHED_KEYS` entries — fresh
states start empty, encryption never touches the cache, and every cache
insertion during decryption evicts the first-inserted entry as soon as
the size exceeds the bound. -/
theorem skipped_cache_bound (s : RatchetState) (h : ReachableRatchet s) :
    s.MKSKIPPED.length ≤ MAX_CACHED_KEYS := by
  induction h with
  | init s hi =>
    rcases hi with ⟨ms, bpk, seed, hs⟩ | ⟨ms, spk, hs⟩
    · rw [initializeSender_cache ms bpk seed s hs]
      simp
    · rw [← hs]
      simp [initializeReceiver]
  | step s s' hs hstep ih =>
    rcases hstep with ⟨pt, aad, nonce, hd, ct, he⟩ | ⟨hd, ct, aad, seed, pt, hdec⟩
    · rw [ratchetEncrypt_cache s pt aad nonce s' hd ct he]
      exact ih
    · exact ratchetDecrypt_cache s hd ct aad seed s' pt hdec ih

/-- Claim C6 witness: a fresh receiver state is reachable and its cache
is within the bound. -/
theorem skipped_cache_bound_witness :
    (initializeReceiver [] ⟨[], []⟩).MKSKIPPED.length ≤ MAX_CACHED_KEYS :=
  skipped_cache_bound (initializeReceiver [] ⟨[], []⟩)
    (ReachableRatchet.init _ (Or.inr ⟨[], ⟨[], []⟩, rfl⟩))

/-- Claim C1 (corrected): round-trip correctness holds — the receiver
decrypts the canonical sender's `k`-th message back to exactly the
original plaintext — but the two endpoints' root keys are NOT updated to
identical values: the sender's `RK` stays at the first shared root
`KDF_RK(master, DH(a, B)).rootKey`, while the receiver's first decrypt
additionally performs its own DH ratchet step with a fresh key pair and
stores `KDF_RK(sharedRoot, DH(fresh, A)).rootKey`. -/
theorem ratchet_roundtrip_rk_amended (master pt aad aadD sSeed aSeed newSeed nonceK : Bytes)
    (k : Nat) (hk : k ≤ MAX_SKIP) (hpt : ∀ b ∈ pt, b < 256)
    (hnlen : nonceK.length = 12) (hnb : ∀ b ∈ nonceK, b < 256) :
    ∃ sPost hdr ct rPost,
      encryptNth (senderInit master sSeed aSeed) pt aad (fun _ => nonceK) k
          = .ok (sPost, hdr, ct) ∧
      ratchetDecrypt (initializeReceiver master (generateKeyPair sSeed)) hdr ct aadD newSeed
          = .ok (rPost, pt) ∧
      sPost.RK = some (kdfRKp master
        (scalarMult aSeed (generateKeyPair sSeed).publicKey)).1 ∧
      rPost.RK = some (kdfRKp (kdfRKp master
          (scalarMult aSeed (generateKeyPair sSeed).publicKey)).1
        (scalarMult newSeed (generateKeyPair aSeed).publicKey)).1 := by
  obtain ⟨m, hdec⟩ := pairDecrypt_ok master pt aadD sSeed aSeed newSeed nonceK k
    hk hpt hnlen hnb
  refine ⟨_, _, _, _,
    pairEncrypt_eq master pt aad sSeed aSeed (fun _ => nonceK) k, hdec, ?_, rfl⟩
  rw [senderInit_eq]

/-- Claim C1 witness: a concrete matched pair round-trips the second
message (`k = 1`), with the two root keys as characterised. -/
theorem ratchet_roundtrip_rk_amended_witness :
    ∃ sPost hdr ct rPost,
      encryptNth (senderInit [1] [2] [3]) [11] [] (fun _ => List.replicate 12 0) 1
          = .ok (sPost, hdr, ct) ∧
      ratchetDecrypt (initializeReceiver [1] (generateKeyPair [2])) hdr ct [] [5]
          = .ok (rPost, [11]) ∧
      sPost.RK = some (kdfRKp [1]
        (scalarMult [3] (generateKeyPair [2]).publicKey)).1 ∧
      rPost.RK = some (kdfRKp (kdfRKp [1]
          (scalarMult [3] (generateKeyPair [2]).publicKey)).1
        (scalarMult [5] (generateKeyPair [3]).publicKey)).1 :=
  ratchet_roundtrip_rk_amended [1] [11] [] [] [2] [3] [5] (List.replicate 12 0) 1
    (by decide) (by decide) (by decide) (by decide)

set_option maxRecDepth 20000 in
set_option maxHeartbeats 40000000 in
/-- Claim C1 counterexample: on a concrete matched pair the first
message round-trips, yet the receiver's root key after the decrypt
differs from the sender's — the two endpoints' `RK` are NOT updated
identically. -/
theorem ratchet_roundtrip_rk_refuted :
    ∃ sPost hdr ct, encryptNth (senderInit [1] [2] [3]) [7] []
        (fun _ => List.replicate 12 0) 0 = .ok (sPost, hdr, ct) ∧
      ∃ rPost, ratchetDecrypt (initializeReceiver [1] (generateKeyPair [2])) hdr ct [] [5]
          = .ok (rPost, [7]) ∧ rPost.RK ≠ sPost.RK := by
  obtain ⟨m, hdec⟩ := pairDecrypt_ok [1] [7] [] [2] [3] [5] (List.replicate 12 0) 0
    (by decide) (by decide) (by decide) (by decide)
  refine ⟨_, _, _, pairEncrypt_eq [1] [7] [] [2] [3] (fun _ => List.replicate 12 0) 0,
    _, hdec, ?_⟩
  show some (kdfRKp (kdfRKp [1] (scalarMult [3] (generateKeyPair [2]).publicKey)).1
      (scalarMult [5] (generateKeyPair [3]).publicKey)).1
    ≠ ({ senderInit [1] [2] [3] with
         CKs := some (ckChain (kdfRKp [1]
           (scalarMult [3] (generateKeyPair [2]).publicKey)).2 1),
         Ns := 1 } : RatchetState).RK
  rw [senderInit_eq]
  decide

/-- Claim C2 (confirmed): altering any single byte of a valid ciphertext
body makes `ratchetDecrypt` fail with the authentication error, while
the intact message still decrypts from the same state.  `ratchetDecrypt`
is pure in the embedding because the source builds fresh state objects
and assigns them only after full success — a thrown error leaves the
caller's state exactly as before the attempt, so no counter, chain key
or cache entry survives a failed decrypt. -/
theorem tamper_atomicity (master pt aadD sSeed aSeed newSeed nonceK : Bytes)
    (k i v : Nat) (hk : k ≤ MAX_SKIP) (hpt : ∀ b ∈ pt, b < 256)
    (hnlen : nonceK.length = 12) (hnb : ∀ b ∈ nonceK, b < 256)
    (hi : i < pt.length) (hv : v < 256)
    (hne : v ≠ (sbEncBytes (sbStreamBase
      (deriveMessageKeysP (kdfCK (ckChain (kdfRKp master
        (scalarMult aSeed (generateKeyPair sSeed).publicKey)).2 k)).1).1
      (nonceK ++ List.replicate (24 - nonceK.length) 0)) 0 pt).getD i 0) :
    ratchetDecrypt (initializeReceiver master (generateKeyPair sSeed))
      ⟨(generateKeyPair aSeed).publicKey, 0, k⟩
      (bytesToBase64 (nonceK ++
        (natToBytesLE 16 (sbTag
            (deriveMessageKeysP (kdfCK (ckChain (kdfRKp master
              (scalarMult aSeed (generateKeyPair sSeed).publicKey)).2 k)).1).1
            (nonceK ++ List.replicate (24 - nonceK.length) 0)
            (sbEncBytes (sbStreamBase
              (deriveMessageKeysP (kdfCK (ckChain (kdfRKp master
                (scalarMult aSeed (generateKeyPair sSeed).publicKey)).2 k)).1).1
              (nonceK ++ List.replicate (24 - nonceK.length) 0)) 0 pt)) ++
         (sbEncBytes (sbStreamBase
            (deriveMessageKeysP (kdfCK (ckChain (kdfRKp master
              (scalarMult aSeed (generateKeyPair sSeed).publicKey)).2 k)).1).1
            (nonceK ++ List.replicate (24 - nonceK.length) 0)) 0 pt).set i v)))
      aadD newSeed = .error .authFailed ∧
    ∃ rPost, ratchetDecrypt (initializeReceiver master (generateKeyPair sSeed))
      ⟨(generateKeyPair aSeed).publicKey, 0, k⟩
      (bytesToBase64 (nonceK ++
        secretbox pt (nonceK ++ List.replicate (24 - nonceK.length) 0)
          (deriveMessageKeysP (kdfCK (ckChain (kdfRKp master
            (scalarMult aSeed (generateKeyPair sSeed).publicKey)).2 k)).1).1))
      aadD newSeed = .ok (rPost, pt) := by
  refine ⟨pairDecrypt_tampered master pt aadD sSeed aSeed newSeed nonceK k i v
    hk hpt hnlen hnb hi hv hne, ?_⟩
  obtain ⟨m, hm⟩ := pairDecrypt_ok master pt aadD sSeed aSeed newSeed nonceK k
    hk hpt hnlen hnb
  exact ⟨_, hm⟩

set_option maxRecDepth 20000 in
set_option maxHeartbeats 40000000 in
/-- Claim C2 witness: on a concrete matched pair, the first message with
its first body byte flipped to 1 is rejected with the authentication
error, and the intact message still decrypts. -/
theorem tamper_atomicity_witness :
    ∃ ctTampered ctValid : String,
      ratchetDecrypt (initializeReceiver [1] (generateKeyPair [2]))
        ⟨(generateKeyPair [3]).publicKey, 0, 0⟩ ctTampered [] [5]
        = .error .authFailed ∧
      ∃ rPost, ratchetDecrypt (initializeReceiver [1] (generateKeyPair [2]))
        ⟨(generateKeyPair [3]).publicKey, 0, 0⟩ ctValid [] [5] = .ok (rPost, [7]) := by
  have h := tamper_atomicity [1] [7] [] [2] [3] [5] (List.replicate 12 0) 0 0 1
    (by decide) (by decide) (by decide) (by decide) (by decide) (by decide) (by decide)
  exact ⟨_, _, h.1, h.2⟩

set_option maxHeartbeats 2000000 in
/-- Core of Claim C4: on an inbound `'initial'` payload whose inner
ciphertext is too short to decrypt, `decryptMessage` fails — yet the
referenced one-time pre-key has already been deleted from the store and
the freshly created session has already been persisted.  The OPK
consumption and the session save inside `createInboundSession` are plain
sequential storage writes that complete before the inner decrypt runs,
and nothing undoes them on failure. -/
theorem inboundShortFail (w : World) (uid : String) (xh : X3DHHeaderWire)
    (spkRec opkRec : PreKeyRecord) (opkId : Nat) (hdrDh ct : String)
    (now : Nat) (seed : Bytes)
    (hsess : mapGet w.sessions (buildSessionId uid 0) = none)
    (hstoreSess : storageGet w ("signal_session_" ++ buildSessionId uid 0) = none)
    (hspk : storageGet w ("signal_spk_" ++ toString xh.signed_pre_key_id)
      = some (.prekey spkRec))
    (hxopk : xh.one_time_pre_key_id = some opkId) (hopk0 : opkId ≠ 0)
    (hopk : storageGet w ("signal_opk_" ++ toString opkId) = some (.prekey opkRec))
    (hct : (base64ToBytes ct).length < 28)
    (hneSess : "signal_session_" ++ buildSessionId uid 0 ≠ "signal_opk_" ++ toString opkId)
    (hneIds : ("signal_opk_ids" : String) ≠ "signal_opk_" ++ toString opkId) :
    (decryptMessage w uid ⟨"initial", ⟨hdrDh, 0, 0⟩, ct, some xh⟩ now seed).1
        = .error .payloadTooShort ∧
    storageGet (decryptMessage w uid ⟨"initial", ⟨hdrDh, 0, 0⟩, ct, some xh⟩ now seed).2
        ("signal_opk_" ++ toString opkId) = none ∧
    (storageGet (decryptMessage w uid ⟨"initial", ⟨hdrDh, 0, 0⟩, ct, some xh⟩ now seed).2
        ("signal_session_" ++ buildSessionId uid 0)).isSome = true := by
  have hload : loadSession w uid = (none, w) := by
    simp only [loadSession, hsess, hstoreSess]
  obtain ⟨ms, ad, hx3⟩ := x3dhReceiver_ok w.identity.dh
    ⟨base64ToBytes spkRec.publicKey, base64ToBytes spkRec.privateKey⟩
    (some ⟨base64ToBytes opkRec.publicKey, base64ToBytes opkRec.privateKey⟩)
    (deserializeX3DHHeader xh)
  have hcreate : ∃ w2, createInboundSession w uid xh xh.signed_pre_key_id
      xh.one_time_pre_key_id now
      = (.ok (buildSessionId uid 0, initializeReceiver ms
          ⟨base64ToBytes spkRec.publicKey, base64ToBytes spkRec.privateKey⟩), w2) ∧
      storageGet w2 ("signal_opk_" ++ toString opkId) = none ∧
      (storageGet w2 ("signal_session_" ++ buildSessionId uid 0)).isSome = true ∧
      mapGet w2.sessions (buildSessionId uid 0) = some
        ⟨uid, initializeReceiver ms ⟨base64ToBytes spkRec.publicKey,
            base64ToBytes spkRec.privateKey⟩,
          some (deserializeX3DHHeader xh).senderIdentityKey, false, now, none⟩ := by
    unfold createInboundSession
    rw [show getSignedPreKey w xh.signed_pre_key_id = .ok (spkRec.keyId,
        ⟨base64ToBytes spkRec.publicKey, base64ToBytes spkRec.privateKey⟩) from by
      simp only [getSignedPreKey, hspk]]
    rw [hxopk]
    simp only [hopk0, if_true, if_false, consumeOneTimePreKey, hopk, ite_not,
      if_neg hopk0]
    simp only [hx3, saveSession]
    refine ⟨_, rfl, ?_, ?_, ?_⟩
    · simp only [storageGet]
      rw [mapGet_mapSet_ne _ _ _ _ (Ne.symm hneSess)]
      split
      · rw [mapGet_mapSet_ne _ _ _ _ (Ne.symm hneIds), mapGet_mapDelete_self]
      · rw [mapGet_mapDelete_self]
    · simp only [storageGet]
      rw [mapGet_mapSet_self]
      rfl
    · rw [mapGet_mapSet_self]
  obtain ⟨w2, hceq, hopkGone, hsessStored, hsessCache⟩ := hcreate
  have hload2 : loadSession w2 uid = (some
      ⟨uid, initializeReceiver ms ⟨base64ToBytes spkRec.publicKey,
          base64ToBytes spkRec.privateKey⟩,
        some (deserializeX3DHHeader xh).senderIdentityKey, false, now, none⟩, w2) := by
    simp only [loadSession, hsessCache]
  have hshort : ratchetDecrypt (initializeReceiver ms
      ⟨base64ToBytes spkRec.publicKey, base64ToBytes spkRec.privateKey⟩)
      ⟨base64ToBytes hdrDh, 0, 0⟩ ct [] seed = .error .payloadTooShort :=
    ratchetDecrypt_short _ ⟨base64ToBytes spkRec.publicKey, base64ToBytes spkRec.privateKey⟩
      ms rfl rfl rfl rfl rfl ⟨base64ToBytes hdrDh, 0, 0⟩ rfl
      (by show (0 : Nat) ≤ MAX_SKIP; decide) ct [] seed hct
  have hdm : decryptMessage w uid ⟨"initial", ⟨hdrDh, 0, 0⟩, ct, some xh⟩ now seed
      = (.error .payloadTooShort, w2) := by
    unfold decryptMessage
    simp only [hload, Option.isNone_none, and_self, if_true, hceq, hload2, hshort]
  refine ⟨?_, ?_, ?_⟩
  · rw [hdm]
  · rw [hdm]
    exact hopkGone
  · rw [hdm]
    exact hsessStored

/-- Claim C4 (corrected): inbound PreKey handling is NOT atomic.  When
the inner Double Ratchet decrypt of an `'initial'` payload fails (here:
a ciphertext below the 28-byte frame minimum), `decryptMessage` reports
the error, but the operation does NOT roll back: the referenced one-time
pre-key has already been deleted from the pool and the freshly created
session has already been persisted — `createInboundSession` consumes the
OPK and saves the session before the decrypt is attempted, and no code
path undoes either write. -/
theorem inbound_prekey_no_rollback (w : World) (uid : String) (xh : X3DHHeaderWire)
    (spkRec opkRec : PreKeyRecord) (opkId : Nat) (hdrDh ct : String)
    (now : Nat) (seed : Bytes)
    (hsess : mapGet w.sessions (buildSessionId uid 0) = none)
    (hstoreSess : storageGet w ("signal_session_" ++ buildSessionId uid 0) = none)
    (hspk : storageGet w ("signal_spk_" ++ toString xh.signed_pre_key_id)
      = some (.prekey spkRec))
    (hxopk : xh.one_time_pre_key_id = some opkId) (hopk0 : opkId ≠ 0)
    (hopk : storageGet w ("signal_opk_" ++ toString opkId) = some (.prekey opkRec))
    (hct : (base64ToBytes ct).length < 28)
    (hneSess : "signal_session_" ++ buildSessionId uid 0 ≠ "signal_opk_" ++ toString opkId)
    (hneIds : ("signal_opk_ids" : String) ≠ "signal_opk_" ++ toString opkId) :
    (decryptMessage w uid ⟨"initial", ⟨hdrDh, 0, 0⟩, ct, some xh⟩ now seed).1
        = .error .payloadTooShort ∧
    storageGet (decryptMessage w uid ⟨"initial", ⟨hdrDh, 0, 0⟩, ct, some xh⟩ now seed).2
        ("signal_opk_" ++ toString opkId) = none ∧
    (storageGet (decryptMessage w uid ⟨"initial", ⟨hdrDh, 0, 0⟩, ct, some xh⟩ now seed).2
        ("signal_session_" ++ buildSessionId uid 0)).isSome = true :=
  inboundShortFail w uid xh spkRec opkRec opkId hdrDh ct now seed
    hsess hstoreSess hspk hxopk hopk0 hopk hct hneSess hneIds

/-- Claim C4 witness: the concrete inbound world, sender `"bob"`, a
27-byte ciphertext — decryption fails, OPK 7 is gone, the session is
stored. -/
theorem inbound_prekey_no_rollback_witness :
    (decryptMessage inboundWorld "bob" ⟨"initial", ⟨bytesToBase64 [9], 0, 0⟩,
        bytesToBase64 (List.replicate 27 0), some xh0⟩ 111 [6]).1
        = .error .payloadTooShort ∧
    storageGet (decryptMessage inboundWorld "bob" ⟨"initial", ⟨bytesToBase64 [9], 0, 0⟩,
        bytesToBase64 (List.replicate 27 0), some xh0⟩ 111 [6]).2
        ("signal_opk_" ++ toString 7) = none ∧
    (storageGet (decryptMessage inboundWorld "bob" ⟨"initial", ⟨bytesToBase64 [9], 0, 0⟩,
        bytesToBase64 (List.replicate 27 0), some xh0⟩ 111 [6]).2
        ("signal_session_" ++ buildSessionId "bob" 0)).isSome = true :=
  inbound_prekey_no_rollback inboundWorld "bob" xh0 spkRec0 opkRec0 7
    (bytesToBase64 [9]) (bytesToBase64 (List.replicate 27 0)) 111 [6]
    (by decide) (by decide) (by decide) (by decide) (by decide) (by decide)
    (by decide) (by decide) (by decide)

/-- Claim C4 counterexample: the concrete run refuting the claimed
rollback — `decryptMessage` fails on the short ciphertext, yet one-time
pre-key 7 is no longer in the pool and session `alice_0` has been
created and persisted. -/
theorem inbound_prekey_rollback_refuted :
    (decryptMessage inboundWorld "alice" ⟨"initial", ⟨bytesToBase64 [9], 0, 0⟩,
        bytesToBase64 (List.replicate 27 0), some xh0⟩ 100 [6]).1
        = .error .payloadTooShort ∧
    storageGet (decryptMessage inboundWorld "alice" ⟨"initial", ⟨bytesToBase64 [9], 0, 0⟩,
        bytesToBase64 (List.replicate 27 0), some xh0⟩ 100 [6]).2
        "signal_opk_7" = none ∧
    (storageGet (decryptMessage inboundWorld "alice" ⟨"initial", ⟨bytesToBase64 [9], 0, 0⟩,
        bytesToBase64 (List.replicate 27 0), some xh0⟩ 100 [6]).2
        "signal_session_alice_0").isSome = true := by
  have h := inboundShortFail inboundWorld "alice" xh0 spkRec0 opkRec0 7
    (bytesToBase64 [9]) (bytesToBase64 (List.replicate 27 0)) 100 [6]
    (by decide) (by decide) (by decide) (by decide) (by decide) (by decide)
    (by decide) (by decide) (by decide)
  exact ⟨h.1, h.2.1, h.2.2⟩
